/-
Verification of the PDF analysis-and-extraction pipeline
(quizy_parser_service): a shallow embedding of the analyzer,
the five extraction strategies, the sub-extractors (tables,
equations, metadata, OCR batching) and the cache-key derivation,
with theorems settling the specification's claims.

Conventions of the embedding:
- Python dict/str/list values become Lean structures, String, List.
- Calls into external libraries (pdfplumber / fitz page access, the
  `re` regex engine, OCR providers, pdf2image) are modelled as oracle
  data carried by the page / environment structures: the code under
  verification is everything the repository itself computes on top of
  those library results.
- Python floats are modelled as rationals (the code only compares them
  against fixed decimal thresholds and divides nonnegative quantities).
- Fallible code returns Except PyErr; a Python exception propagating is
  `.error`, a caught exception follows the source's `except` branch.
- `hashlib.md5(x).hexdigest()` is applied by the source to a payload
  string; the embedding works at the payload level (`md5` below keeps
  the payload, which identifies the key up to md5 collisions: two keys
  are equal in the source iff the payloads agree, and distinct payloads
  give distinct keys barring a collision).
-/
import Mathlib

namespace Quizy

set_option maxRecDepth 16384

/-- Python exception kinds that the modelled code can raise. -/
inductive PyErr where
  | ioError
  | zeroDivisionError
  | typeError
  | valueError
  | importError
  | nameError
  deriving DecidableEq, Repr

/-- Python `str.strip()` (kernel-computable model over the character
list; Lean's `String.trim` is byte-position based and does not reduce
in the kernel). -/
def pyStrip (s : String) : String :=
  String.mk
    (((s.data.dropWhile Char.isWhitespace).reverse.dropWhile
      Char.isWhitespace).reverse)

/-- Python `str.lower()`. -/
def pyLower (s : String) : String := String.mk (s.data.map Char.toLower)

/-- Python `s.startswith(pre)`. -/
def strStartsWith (s pre : String) : Bool := pre.data.isPrefixOf s.data

/-- Python `s.split(c)` for a one-character separator (empty pieces
kept, as Python does). -/
def strSplitOnChar (s : String) (c : Char) : List String :=
  (s.data.splitOnP (fun d => d = c)).map String.mk

/-- Model of Python `str.split()` with no argument: split on whitespace
runs, dropping empty pieces. -/
def pySplitWs (s : String) : List String :=
  ((s.data.splitOnP Char.isWhitespace).map String.mk).filter
    (fun w => w ≠ "")

/-- Auxiliary left-to-right non-overlapping replacement. -/
def replaceAux (pat rep : List Char) : List Char → List Char
  | [] => []
  | c :: rest =>
    if pat.isPrefixOf (c :: rest) then
      rep ++ replaceAux pat rep (rest.drop (pat.length - 1))
    else
      c :: replaceAux pat rep rest
  termination_by l => l.length
  decreasing_by
    all_goals simp [List.length_drop]
    omega

/-- Python `s.replace(pat, rep)` for a non-empty pattern. -/
def pyReplace (s pat rep : String) : String :=
  if pat.data = [] then s
  else String.mk (replaceAux pat.data rep.data s.data)

/-- Python `len(text.split())`, the word count used throughout. -/
def pyWordCount (s : String) : Nat := (pySplitWs s).length

/-- Model of Python's substring operator `pat in s`. -/
def strContains (s pat : String) : Bool :=
  decide (pat.toList <:+: s.toList)

/-- Auxiliary non-overlapping substring counter over character lists. -/
def countSubAux : List Char → List Char → Nat
  | [], s => s.length + 1
  | _ :: _, [] => 0
  | p :: ps, c :: rest =>
    if (p :: ps).isPrefixOf (c :: rest) then
      1 + countSubAux (p :: ps) (rest.drop ps.length)
    else
      countSubAux (p :: ps) rest
  termination_by _pat s => s.length
  decreasing_by
    all_goals simp [List.length_drop]
    omega

/-- Model of Python `s.count(pat)` (non-overlapping occurrences). -/
def pyCount (s pat : String) : Nat := countSubAux pat.toList s.toList

/-- Python `int()` applied to a float value: truncation toward zero. -/
def pyInt (q : ℚ) : ℤ := if 0 ≤ q then ⌊q⌋ else ⌈q⌉

/-- Python float division: raises ZeroDivisionError on a zero
denominator, otherwise exact division (floats modelled as rationals). -/
def pyDivQ (a b : ℚ) : Except PyErr ℚ :=
  if b = 0 then .error .zeroDivisionError else .ok (a / b)

/-- Python `//` floor division on integers (denominator nonzero in all
guarded uses; `Int.fdiv` matches Python's floor semantics). -/
def pyFloorDiv (a b : ℤ) : Except PyErr ℤ :=
  if b = 0 then .error .zeroDivisionError else .ok (Int.fdiv a b)

/-- `for i in range(0, len(tasks), 5): batch = tasks[i:i+5]` —
the fixed-size batching both OCR code paths use before each
`await asyncio.gather(*batch)`.  Batch `N+1` is only formed after the
gather of batch `N` has returned, so the list of chunks is exactly the
schedule of concurrently-running task groups. -/
def chunks5 {α : Type} : List α → List (List α)
  | [] => []
  | x :: xs => (x :: xs.take 4) :: chunks5 (xs.drop 4)
  termination_by xs => xs.length
  decreasing_by
    simp [List.length_drop]
    omega

/-- Stand-in for `hashlib.md5(payload).hexdigest()`: the embedding keeps
the payload string itself (see header comment). -/
def md5 (payload : String) : String := payload

/-! ## Source data model (oracle results of the PDF libraries) -/

/-- Result of `doc.extract_image(xref)` for one embedded image;
`extractOk = false` models the per-image `except` branch. -/
structure ImageInfo where
  extractOk : Bool
  width : Nat
  height : Nat
  ext : String
  size : Nat
  deriving DecidableEq, Repr

/-- One span of `page.get_text("dict")`. -/
structure Span where
  font : String
  text : String
  deriving DecidableEq, Repr

/-- One line of a text block. -/
structure TextLine where
  spans : List Span
  deriving DecidableEq, Repr

/-- One block of `page.get_text("dict")`; `type = 0` is a text block. -/
structure Block where
  type : Nat
  lines : List TextLine
  deriving DecidableEq, Repr

/-- Everything the repository's code reads from one page through the
pdfplumber / fitz / OCR libraries. -/
structure SrcPage where
  /-- `page.extract_text() or ""` / `page.get_text()`. -/
  text : String
  /-- `page.extract_tables()`: raw grids of optional cell strings. -/
  rawTables : List (List (List (Option String)))
  /-- `page.get_text("dict")["blocks"]`. -/
  blocks : List Block
  width : ℚ
  height : ℚ
  /-- images of the page together with their `extract_image` results. -/
  images : List ImageInfo
  /-- truthiness of `page.annots()`. -/
  annots : Bool
  /-- font names (`font[3]` of `page.get_fonts()`). -/
  fonts : List String
  /-- truthiness of `page.find_tables()` (analyzer's table probe). -/
  hasTablesProbe : Bool
  /-- text produced by the OCR provider chain for this page's image. -/
  ocrText : String
  deriving Repr

/-- An open fitz/pdfplumber document: its ordered pages. -/
structure FitzDoc where
  pages : List SrcPage
  deriving Repr

/-- A fully blank page, the base of concrete test documents. -/
def blankPage : SrcPage :=
  { text := "", rawTables := [], blocks := [], width := 0, height := 0
    images := [], annots := false, fonts := [], hasTablesProbe := false
    ocrText := "" }

/-! ## Characteristics Analyzer (src/app/parsers/pdf/analyzer.py) -/

/-- `_get_sample_pages`: all pages for documents of at most 20 pages,
otherwise first 10 + middle window + last 5, deduplicated
(`list(set(samples))`, modelled as `List.dedup`). -/
def get_sample_pages (total_pages : Nat) : List Nat :=
  if total_pages ≤ 20 then
    List.range total_pages
  else
    let middle := total_pages / 2
    let firstTen := List.range (min 10 total_pages)
    let midStart := max 10 (middle - 2)
    let midStop := min (middle + 3) total_pages
    let lastStart := max (middle + 3) (total_pages - 5)
    let samples := firstTen ++ List.range' midStart (midStop - midStart)
      ++ List.range' lastStart (total_pages - lastStart)
    samples.dedup

/-- `_is_scanned_pdf`. -/
def is_scanned_pdf (text_density : ℚ) (avg_text_per_page : ℤ)
    (image_density : ℚ) : Bool :=
  if text_density < 1/10 ∧ avg_text_per_page < 100 then true
  else if 4/5 < image_density ∧ avg_text_per_page < 200 then true
  else false

/-- `_determine_strategy`. -/
def determine_strategy (is_scanned : Bool) (text_density image_density
    table_density : ℚ) (has_equations : Bool) : String :=
  if is_scanned then "ocr_heavy"
  else if has_equations then "math_focus"
  else if 3/10 < table_density then "table_focus"
  else if 1/2 < image_density ∧ text_density < 1/2 then "hybrid"
  else if 7/10 < text_density then "text_focus"
  else "hybrid"

/-- The math/Arabic font family names of `analyze_pdf`'s font loop. -/
def mathAndArabicFonts : List String :=
  ["math", "symbol", "equation", "cmr", "cmmi",
   "arabic", "traditional arabic", "simplified arabic",
   "arial unicode", "tahoma", "droid arabic"]

/-- The nested font check of `analyze_pdf`: a font first matches the
math/Arabic list, and only a `math`/`symbol` match sets the equation
flag. -/
def fontFlagsEquations (fonts : List String) : Bool :=
  fonts.any fun f =>
    let fl := pyLower f
    if mathAndArabicFonts.any (fun n => strContains fl n) then
      strContains fl "math" || strContains fl "symbol"
    else false

/-- Math symbol list of the analyzer's `_has_math_content`. -/
def analyzerMathIndicators : List String :=
  ["∑", "∫", "∂", "√", "±", "×", "÷", "≈", "≠", "≤", "≥",
   "∈", "∉", "⊂", "⊃", "∪", "∩", "∀", "∃", "∇", "∆",
   "α", "β", "γ", "δ", "θ", "λ", "μ", "σ", "π", "φ", "ω"]

/-- Regex equation patterns of the analyzer's `_has_math_content`. -/
def analyzerEquationPatterns : List String :=
  ["\\b[a-z]\\s*=\\s*\\d+",
   "\\d+\\s*[+\\-*/]\\s*\\d+\\s*=",
   "\\\\[a-z]+\\x7b",
   "\\$.*\\$",
   "[\\u0660-\\u0669]+\\s*[+\\-*/]\\s*[\\u0660-\\u0669]+",
   "[٠-٩]+\\s*[+\\-*/]\\s*[٠-٩]+"]

/-- `_has_math_content` of the analyzer; `reSearch pat text` is the
truthiness of `re.search(pat, text)` (the `re` engine is an external
library, supplied as an oracle). -/
def analyzer_has_math_content (reSearch : String → String → Bool)
    (text : String) : Bool :=
  analyzerMathIndicators.any (fun ind => strContains text ind) ||
  analyzerEquationPatterns.any (fun pat => reSearch pat text)

/-- `_detect_tables` before its `try/except`: sampled probe with the
guarded density division. -/
def detect_tablesE (doc : FitzDoc) (total_pages : Nat) : Except PyErr ℚ := do
  let pagesToCheck := get_sample_pages (min total_pages doc.pages.length)
  let pagesWithTables :=
    ((pagesToCheck.take 20).filter fun i =>
      match doc.pages[i]? with
      | some p => p.hasTablesProbe
      | none => false).length
  if pagesToCheck ≠ [] then
    pyDivQ (pagesWithTables : ℚ) (pagesToCheck.length : ℚ)
  else
    .ok 0

/-- `_detect_tables`: any exception inside is caught and yields `0.0`. -/
def detect_tables (doc : FitzDoc) (total_pages : Nat) : ℚ :=
  match detect_tablesE doc total_pages with
  | .ok d => d
  | .error _ => 0

/-- Accumulator of `analyze_pdf`'s sampled-page loop. -/
structure AnalyzeAcc where
  textPages : Nat
  imageCount : Nat
  totalTextLen : Nat
  fonts : List String
  pageSizes : List (ℚ × ℚ)
  hasAnnotations : Bool
  potentialEquations : Bool
  potentialDiagrams : Bool
  /-- value of the leaked loop variable `text` after the loop
  (`none` when the loop body never ran). -/
  lastText : Option String

/-- Initial accumulator of the sampled-page loop. -/
def initAcc : AnalyzeAcc :=
  ⟨0, 0, 0, [], [], false, false, false, none⟩

/-- One iteration of `analyze_pdf`'s sampled-page loop
(`continue` on an out-of-range page number). -/
def analyzeStep (doc : FitzDoc) (acc : AnalyzeAcc) (page_num : Nat) :
    AnalyzeAcc :=
  match doc.pages[page_num]? with
  | none => acc
  | some p =>
    let textLength := (pyStrip p.text).length
    { textPages := acc.textPages + (if 50 < textLength then 1 else 0)
      imageCount := acc.imageCount + p.images.length
      totalTextLen := acc.totalTextLen + textLength
      fonts := acc.fonts ++ (p.fonts.filter fun f => f ∉ acc.fonts)
      pageSizes := acc.pageSizes ++ [(p.width, p.height)]
      hasAnnotations := acc.hasAnnotations || p.annots
      potentialEquations := acc.potentialEquations || fontFlagsEquations p.fonts
      potentialDiagrams := acc.potentialDiagrams ||
        p.images.any (fun im =>
          im.extractOk && 200 < im.width && 200 < im.height)
      lastText := some p.text }

/-- The PDF fingerprint (`PDFCharacteristics` dataclass). -/
structure PDFCharacteristics where
  total_pages : Nat
  has_text : Bool
  has_images : Bool
  has_tables : Bool
  has_forms : Bool
  is_scanned : Bool
  has_annotations : Bool
  text_density : ℚ
  image_density : ℚ
  table_density : ℚ
  avg_text_per_page : ℤ
  fonts_used : List String
  page_sizes : List (ℚ × ℚ)
  has_equations : Bool
  has_diagrams : Bool
  recommended_strategy : String
  file_hash : String
  deriving DecidableEq, Repr

/-- The zeroed fingerprint returned by `analyze_pdf`'s `except` branch. -/
def defaultCharacteristics (file_hash : String) : PDFCharacteristics :=
  { total_pages := 0, has_text := false, has_images := false
    has_tables := false, has_forms := false, is_scanned := false
    has_annotations := false, text_density := 0, image_density := 0
    table_density := 0, avg_text_per_page := 0, fonts_used := []
    page_sizes := [], has_equations := false, has_diagrams := false
    recommended_strategy := "text_focus", file_hash := file_hash }

/-- `_calculate_file_hash`: reads the file's bytes (raising when the
file is unreadable) and hashes them. -/
def calculate_file_hash (content : Option (List Nat)) :
    Except PyErr String :=
  match content with
  | none => .error .ioError
  | some bs => .ok (md5 (toString bs))

/-- The body of `analyze_pdf`'s `try` block, after `fitz.open`
succeeded: sampled-page scan, extrapolation, guarded density
arithmetic, scan classification, table probe, math detection,
strategy choice. -/
def analyzeDoc (reSearch : String → String → Bool) (doc : FitzDoc)
    (file_hash : String) : Except PyErr PDFCharacteristics := do
  let total_pages := doc.pages.length
  let sample := get_sample_pages total_pages
  let acc := sample.foldl (analyzeStep doc) initAcc
  let sample_size := sample.length
  let (textPagesZ, imageCountZ, totalTextZ) ←
    if 0 < sample_size then do
      let tp ← pyDivQ (acc.textPages : ℚ) (sample_size : ℚ)
      let ic ← pyDivQ (acc.imageCount : ℚ) (sample_size : ℚ)
      let tt ← pyDivQ (acc.totalTextLen : ℚ) (sample_size : ℚ)
      pure (pyInt (tp * total_pages), pyInt (ic * total_pages),
            pyInt (tt * total_pages))
    else
      pure ((acc.textPages : ℤ), (acc.imageCount : ℤ),
            (acc.totalTextLen : ℤ))
  let avg_text_per_page ←
    if 0 < total_pages then pyFloorDiv totalTextZ (total_pages : ℤ)
    else pure 0
  let text_density ←
    if 0 < total_pages then pyDivQ (textPagesZ : ℚ) (total_pages : ℚ)
    else pure 0
  let image_density ←
    if 0 < total_pages then pyDivQ (imageCountZ : ℚ) (total_pages : ℚ)
    else pure 0
  let is_scanned := is_scanned_pdf text_density avg_text_per_page
    image_density
  let table_density := detect_tables doc total_pages
  let has_equations ←
    if acc.potentialEquations then pure true
    else match acc.lastText with
      | none => Except.error PyErr.nameError
      | some t => pure (analyzer_has_math_content reSearch t)
  let strategy := determine_strategy is_scanned text_density image_density
    table_density has_equations
  pure
    { total_pages := total_pages
      has_text := 1/10 < text_density
      has_images := 0 < imageCountZ
      has_tables := 0 < table_density
      has_forms := false
      is_scanned := is_scanned
      has_annotations := acc.hasAnnotations
      text_density := text_density
      image_density := image_density
      table_density := table_density
      avg_text_per_page := avg_text_per_page
      fonts_used := acc.fonts
      page_sizes := acc.pageSizes
      has_equations := has_equations
      has_diagrams := acc.potentialDiagrams
      recommended_strategy := strategy
      file_hash := file_hash }

/-- Input of `analyze_pdf`: the file's bytes (`none` when unreadable),
the result of `fitz.open` (`none` when opening raises), and the regex
oracle. -/
structure AnalyzerInput where
  content : Option (List Nat)
  doc : Option FitzDoc
  reSearch : String → String → Bool

/-- `analyze_pdf`: the file hash is computed before the `try` block
(so a failure there propagates); everything from `fitz.open` to the
return is inside `try`, whose `except` returns the zeroed
fingerprint. -/
def analyze_pdf (input : AnalyzerInput) :
    Except PyErr PDFCharacteristics :=
  match calculate_file_hash input.content with
  | .error e => .error e
  | .ok file_hash =>
    match input.doc with
    | none => .ok (defaultCharacteristics file_hash)
    | some doc =>
      match analyzeDoc input.reSearch doc file_hash with
      | .ok c => .ok c
      | .error _ => .ok (defaultCharacteristics file_hash)

/-! ## Options map (src/app/parsers/... `options.get(...)` keys) -/

/-- The `pages` option of the table extractor: `'all'`, a list of
1-indexed page numbers, or any other value (treated as `'all'`). -/
inductive PagesOpt where
  | all
  | list (idxs : List Nat)
  | other
  deriving DecidableEq, Repr

/-- The recognized keys of the options dict; `none` models an absent
key, so `options.get(k, d)` is `field.getD d`. -/
structure POptions where
  max_pages : Option Nat := none
  extract_tables : Option Bool := none
  extract_images : Option Bool := none
  ocr_enabled : Option Bool := none
  language : Option String := none
  subject : Option String := none
  document_type : Option String := none
  academic_level : Option String := none
  pages : Option PagesOpt := none
  preprocess : Option Bool := none
  force_strategy : Option String := none
  generate_quiz_content : Option Bool := none
  deriving Repr

/-! ## Table Extractor (src/app/parsers/pdf/table_extractor.py) -/

/-- Acceptance of Python `float(s)` (after the stripping the caller
does): optional sign, digits with at most one decimal point, optional
exponent, or inf/nan forms.  Underscore digit grouping is not
modelled. -/
def isDigits (s : String) : Bool :=
  !s.data.isEmpty && s.data.all Char.isDigit

/-- Mantissa part of a float literal. -/
def validMantissa (s : String) : Bool :=
  match strSplitOnChar s '.' with
  | [a] => isDigits a
  | [a, b] => (isDigits a || a = "") && (isDigits b || b = "") &&
      !(a = "" && b = "")
  | _ => false

/-- Exponent part of a float literal. -/
def validExponent (s : String) : Bool :=
  let t :=
    if strStartsWith s "+" || strStartsWith s "-" then
      String.mk (s.data.drop 1)
    else s
  isDigits t

/-- Model of Python `float(s)` succeeding. -/
def pyFloatParses (s : String) : Bool :=
  let t := pyStrip s
  let t :=
    if strStartsWith t "+" || strStartsWith t "-" then
      String.mk (t.data.drop 1)
    else t
  let tl := pyLower t
  if tl = "inf" || tl = "infinity" || tl = "nan" then true
  else
    match strSplitOnChar tl 'e' with
    | [m] => validMantissa m
    | [m, ex] => validMantissa m && validExponent ex
    | _ => false

/-- `_is_numeric`: float conversion after stripping `,`, `$`, `%`. -/
def is_numeric (value : String) : Bool :=
  pyFloatParses
    (pyReplace (pyReplace (pyReplace value "," "") "$" "") "%" "")

/-- `str(cell).strip() if cell else ''` on an optional cell. -/
def cleanCell : Option String → String
  | none => ""
  | some s => if s = "" then "" else pyStrip s

/-- `_is_header_row`. -/
def is_header_row (row : List String) : Bool :=
  if row = [] then false
  else
    let nonEmpty := (row.filter fun c => c ≠ "").length
    if (nonEmpty : ℚ) < (row.length : ℚ) * (1/2) then false
    else
      let numericCount := (row.filter fun c => is_numeric c).length
      numericCount < row.length

/-- `_to_markdown`. -/
def to_markdown (headers : List String) (rows : List (List String)) :
    String :=
  if headers = [] ∧ rows = [] then ""
  else
    let headerLines :=
      if headers ≠ [] then
        ["| " ++ String.intercalate " | " headers ++ " |",
         "| " ++ String.intercalate " | " (headers.map fun _ => "---") ++ " |"]
      else []
    let rowLines := rows.map fun row =>
      "| " ++ String.intercalate " | " row ++ " |"
    String.intercalate "\n" (headerLines ++ rowLines)

/-- One CSV field under the default `csv.writer` dialect
(QUOTE_MINIMAL). -/
def csvField (s : String) : String :=
  if strContains s "," || strContains s "\"" || strContains s "\n" ||
      strContains s "\r" then
    "\"" ++ pyReplace s "\"" "\"\"" ++ "\""
  else s

/-- One CSV row; the default dialect's line terminator is CRLF. -/
def csvRow (row : List String) : String :=
  String.intercalate "," (row.map csvField) ++ "\r\n"

/-- `_to_csv`. -/
def to_csv (headers : List String) (rows : List (List String)) : String :=
  (if headers ≠ [] then csvRow headers else "") ++
    String.join (rows.map csvRow)

/-- `_to_html`: a list of lines joined with a newline — each `<th>` and
`<td>` sits on its own indented line. -/
def to_html (headers : List String) (rows : List (List String)) : String :=
  let htmlLines :=
    ["<table>"]
    ++ (if headers ≠ [] then
          ["  <thead><tr>"]
          ++ headers.map (fun h => "    <th>" ++ h ++ "</th>")
          ++ ["  </tr></thead>"]
        else [])
    ++ ["  <tbody>"]
    ++ (rows.flatMap fun row =>
          ["  <tr>"]
          ++ row.map (fun cell => "    <td>" ++ cell ++ "</td>")
          ++ ["  </tr>"])
    ++ ["  </tbody>", "</table>"]
  String.intercalate "\n" htmlLines

/-- `_analyze_table`'s result record. -/
structure TableAnalysis where
  data_types : List String
  has_numeric : Bool
  row_count : Nat
  col_count : Nat
  deriving DecidableEq, Repr

/-- `_analyze_table`: per-column majority-vote type inference. -/
def analyze_table (headers : List String) (rows : List (List String)) :
    TableAnalysis :=
  let col_count :=
    if headers ≠ [] then headers.length
    else match rows.head? with
      | some r => r.length
      | none => 0
  if rows = [] then
    { data_types := [], has_numeric := false, row_count := 0
      col_count := col_count }
  else
    let colType := fun (col_idx : Nat) =>
      let colValues := rows.map fun row => (row[col_idx]?).getD ""
      let numericCount := (colValues.filter fun v => is_numeric v).length
      (numericCount : ℚ) > (colValues.length : ℚ) * (1/2)
    let types := (List.range col_count).map fun i =>
      if colType i then "numeric" else "text"
    { data_types := types
      has_numeric := (List.range col_count).any fun i => colType i
      row_count := rows.length
      col_count := col_count }

/-- A processed table (`_process_table`'s dictionary). -/
structure TableOut where
  id : String
  page_number : Nat
  headers : List String
  rows : List (List String)
  num_rows : Nat
  num_cols : Nat
  markdown : String
  csv : String
  html : String
  analysis : TableAnalysis
  deriving DecidableEq, Repr

/-- `_process_table`: clean the raw grid, detect a header row, attach
the three representations and the analysis; `none` for an empty or
fully-blank table. -/
def process_table (raw_table : List (List (Option String)))
    (page_num table_idx : Nat) : Option TableOut :=
  if raw_table = [] then none
  else
    let cleaned :=
      ((raw_table.filter fun row => row ≠ []).map
        (fun row => row.map cleanCell)).filter
        fun row => row.any (fun c => c ≠ "")
    match cleaned with
    | [] => none
    | c0 :: crest =>
      let (headers, data_rows) :=
        if is_header_row c0 then (c0, crest) else ([], c0 :: crest)
      some
        { id := "page" ++ toString page_num ++ "_table" ++ toString table_idx
          page_number := page_num
          headers := headers
          rows := data_rows
          num_rows := data_rows.length
          num_cols :=
            if headers ≠ [] then headers.length
            else match data_rows.head? with
              | some r => r.length
              | none => 0
          markdown := to_markdown headers data_rows
          csv := to_csv headers data_rows
          html := to_html headers data_rows
          analysis := analyze_table headers data_rows }

/-- `extract_tables_from_pdf`: whole-document table pass.  The `pages`
option selects pages; the page number attached to a table is the
1-based position in the processed sequence.  `max_pages` is not
consulted. -/
def extract_tables_from_pdf (doc : FitzDoc) (options : POptions) :
    List TableOut :=
  let pages :=
    match options.pages.getD PagesOpt.all with
    | PagesOpt.all => doc.pages
    | PagesOpt.list idxs =>
        idxs.filterMap fun i =>
          if 0 < i ∧ i ≤ doc.pages.length then doc.pages[i-1]? else none
    | PagesOpt.other => doc.pages
  pages.enum.flatMap fun (idx, page) =>
    page.rawTables.enum.filterMap fun (tIdx, raw) =>
      if raw ≠ [] then process_table raw (idx + 1) tIdx else none

/-! ## Math Extractor (src/app/parsers/pdf/math_extractor.py) -/

/-- An extracted equation dictionary. -/
structure Equation where
  id : String
  page_number : Nat
  type : String
  raw_text : String
  latex : String
  deriving DecidableEq, Repr

/-- The ordered regex pattern list of `extract_equations_from_page`
(pattern source text together with the equation type it tags). -/
def mathPatterns : List (String × String) :=
  [("\\$\\$([^$]+)\\$\\$", "display"),
   ("\\$([^$]+)\\$", "inline"),
   ("\\\\begin{equation}(.*?)\\\\end{equation}", "display"),
   ("\\\\\\[(.*?)\\\\\\]", "display"),
   ("\\\\\\((.*?)\\\\\\)", "inline"),
   ("([a-zA-Z_]\\w*\\s*=\\s*[^.,;]+)(?:[.,;]|\\s|$)", "simple")]

/-- The operator alternatives of `_is_valid_equation`. -/
def equationOperators : List String :=
  ["=", "+", "-", "*", "/", "^", "_"]

/-- `_is_valid_equation`: at least one operator and at least one
alphanumeric character (`str.isalnum` modelled on the ASCII range). -/
def is_valid_equation (text : String) : Bool :=
  (equationOperators.any fun op => strContains text op) &&
  (text.toList.any Char.isAlphanum)

/-- The symbol replacement table of `_convert_to_latex`. -/
def latexReplacements : List (String × String) :=
  [("×", "\\times"), ("÷", "\\div"), ("±", "\\pm"),
   ("≈", "\\approx"), ("≠", "\\neq"), ("≤", "\\leq"), ("≥", "\\geq"),
   ("∞", "\\infty"), ("√", "\\sqrt"), ("∑", "\\sum"), ("∫", "\\int"),
   ("α", "\\alpha"), ("β", "\\beta"), ("γ", "\\gamma"), ("δ", "\\delta"),
   ("θ", "\\theta"), ("π", "\\pi"), ("σ", "\\sigma"), ("λ", "\\lambda"),
   ("μ", "\\mu"), ("φ", "\\phi"), ("ω", "\\omega")]

/-- `_convert_to_latex`; `reSubs` is the oracle for the three `re.sub`
rewrites (fractions, subscripts, superscripts) done by the `re`
engine. -/
def convert_to_latex (reSubs : String → String) (text eq_type : String) :
    String :=
  if eq_type = "display" ∨ eq_type = "inline" then text
  else
    let latex := pyStrip text
    let latex := latexReplacements.foldl
      (fun acc r => pyReplace acc r.1 r.2) latex
    let latex := reSubs latex
    if !(strStartsWith latex "$") then
      if eq_type = "display" ∨ 50 < latex.length then
        "$$" ++ latex ++ "$$"
      else
        "$" ++ latex ++ "$"
    else latex

/-- The span-font names of the structural fallback. -/
def structuralFontNames : List String := ["math", "symbol", "cmr", "cmmi"]

/-- The concatenated text of a block (`block_text += span["text"]`). -/
def blockText (b : Block) : String :=
  String.join (b.lines.map fun l => String.join (l.spans.map Span.text))

/-- Whether some span of the block is rendered in a math/symbol font. -/
def blockHasMathFont (b : Block) : Bool :=
  b.lines.any fun l => l.spans.any fun sp =>
    structuralFontNames.any fun mf => strContains (pyLower sp.font) mf

/-- The pattern phase of `extract_equations_from_page`: candidates
found by `re.finditer` (oracle `reFind`, applied to the fixed pattern
list) are stripped, length-checked and validated before they are
appended. -/
def equationPatternPhase (reFind : String → String → List String)
    (reSubs : String → String) (text : String) (page_num : Nat) :
    List Equation × Nat :=
  mathPatterns.foldl
    (fun acc pt =>
      (reFind pt.1 text).foldl
        (fun acc2 m =>
          if 2 < (pyStrip m).length ∧ is_valid_equation (pyStrip m) then
            (acc2.1 ++
              [{ id := "page" ++ toString page_num ++ "_eq" ++
                   toString acc2.2
                 page_number := page_num
                 type := pt.2
                 raw_text := pyStrip m
                 latex := convert_to_latex reSubs (pyStrip m) pt.2 }],
             acc2.2 + 1)
          else acc2)
        acc)
    ([], 0)

/-- The structural phase of `extract_equations_from_page`: text blocks
with a math/symbol span font whose unstripped text is not already a
`raw_text` are appended with type `structural` — without the
`_is_valid_equation` check. -/
def equationStructuralPhase (reSubs : String → String)
    (blocks : List Block) (page_num : Nat)
    (start : List Equation × Nat) : List Equation × Nat :=
  blocks.foldl
    (fun acc b =>
      if b.type = 0 then
        if blockHasMathFont b ∧
            ¬ (acc.1.any fun eq => eq.raw_text = blockText b) then
          (acc.1 ++
            [{ id := "page" ++ toString page_num ++ "_eq" ++
                 toString acc.2
               page_number := page_num
               type := "structural"
               raw_text := pyStrip (blockText b)
               latex := convert_to_latex reSubs (pyStrip (blockText b))
                 "structural" }],
           acc.2 + 1)
        else acc
      else acc)
    start

/-- `extract_equations_from_page` (note: the source signature takes
exactly two arguments, `page` and `page_num`). -/
def extract_equations_from_page (reFind : String → String → List String)
    (reSubs : String → String) (page : SrcPage) (page_num : Nat) :
    List Equation :=
  (equationStructuralPhase reSubs page.blocks page_num
    (equationPatternPhase reFind reSubs page.text page_num)).1

/-- `extract_math_from_pdf`: per-page extraction under the `max_pages`
clamp.  (The surrounding `try/except` is not exercised: page access in
the model is total.) -/
def extract_math_from_pdf (reFind : String → String → List String)
    (reSubs : String → String) (doc : FitzDoc) (options : POptions) :
    List Equation :=
  let max_pages := min (options.max_pages.getD doc.pages.length)
    doc.pages.length
  (List.range max_pages).flatMap fun page_num =>
    match doc.pages[page_num]? with
    | some p => extract_equations_from_page reFind reSubs p (page_num + 1)
    | none => []

/-! ## Extraction Orchestrator (src/app/parsers/pdf/extractor.py) and
OCR processor (src/app/parsers/pdf/ocr_processor.py) -/

/-- Per-page metadata dictionary; `none` fields model absent keys
(different strategies emit different key sets). -/
structure PageMeta where
  wordCount : Nat
  characterCount : Nat
  estimatedReadingTime : Nat
  paragraphCount : Option Nat := none
  hasImages : Option Bool := none
  hasTables : Option Bool := none
  textDensity : Option ℚ := none
  ocrApplied : Option Bool := none
  ocrMethod : Option String := none
  hasEquations : Option Bool := none
  deriving DecidableEq, Repr

/-- A table of `_format_simple_tables` (the text-focused strategy's
lighter table shape: raw optional cells, markdown only). -/
structure SimpleTable where
  id : String
  headers : List (Option String)
  rows : List (List (Option String))
  markdown : String
  deriving DecidableEq, Repr

/-- An image record of `_extract_page_images`. -/
structure PageImageOut where
  id : String
  pageNumber : Nat
  format : String
  width : Nat
  height : Nat
  size : Nat
  deriving DecidableEq, Repr

/-- One emitted page.  The `elements` dict is modelled by optional
lists (`none` = key absent); the text-focused strategy stores
`SimpleTable`s under the `tables` key while the table-focused strategy
stores full `TableOut`s, hence two fields. -/
structure PageOut where
  pageNumber : Nat
  content : String
  metadata : PageMeta
  tables : Option (List TableOut) := none
  simpleTables : Option (List SimpleTable) := none
  equations : Option (List Equation) := none
  images : Option (List PageImageOut) := none
  deriving DecidableEq, Repr

/-- The uniform result every strategy returns. -/
structure ExtractionResult where
  pages : List PageOut
  fullText : String
  totalWordCount : Nat
  extractionMethod : String
  totalTables : Option Nat := none
  totalEquations : Option Nat := none
  equations : Option (List Equation) := none
  deriving DecidableEq, Repr

/-- `str(cell) if cell else ""` on a raw optional cell. -/
def pyCellStr (c : Option String) : String := c.getD ""

/-- `str(h)` on a raw header cell (`None` prints as `"None"`). -/
def pyStrOpt : Option String → String
  | none => "None"
  | some s => s

/-- `_simple_table_to_markdown`. -/
def simple_table_to_markdown (headers : List (Option String))
    (rows : List (List (Option String))) : String :=
  if headers = [] ∧ rows = [] then ""
  else
    let headerLines :=
      if headers ≠ [] then
        ["| " ++ String.intercalate " | " (headers.map pyStrOpt) ++ " |",
         "| " ++ String.intercalate " | " (headers.map fun _ => "---") ++ " |"]
      else []
    let rowLines := rows.map fun row =>
      "| " ++ String.intercalate " | " (row.map pyCellStr) ++ " |"
    String.intercalate "\n" (headerLines ++ rowLines)

/-- `_format_simple_tables`. -/
def format_simple_tables (tables : List (List (List (Option String)))) :
    List SimpleTable :=
  tables.enum.filterMap fun it =>
    if it.2 ≠ [] then
      let headers := it.2.headD []
      let rows := it.2.tail
      some { id := "table_" ++ toString it.1
             headers := headers
             rows := rows
             markdown := simple_table_to_markdown headers rows }
    else none

/-- `_extract_page_images`: one record per image whose
`extract_image` call succeeded. -/
def extract_page_images (page : SrcPage) (page_num : Nat) :
    List PageImageOut :=
  page.images.enum.filterMap fun ii =>
    if ii.2.extractOk then
      some { id := "page" ++ toString page_num ++ "_img" ++ toString ii.1
             pageNumber := page_num
             format := ii.2.ext
             width := ii.2.width
             height := ii.2.height
             size := ii.2.size }
    else none

/-- `_has_math_content` of extractor.py (the 17-symbol indicator
list). -/
def extractorMathIndicators : List String :=
  ["∑", "∫", "∂", "√", "±", "×", "÷", "≈", "≠", "≤", "≥",
   "α", "β", "γ", "δ", "θ", "π"]

/-- `_has_math_content` of extractor.py. -/
def extractor_has_math_content (text : String) : Bool :=
  extractorMathIndicators.any fun ind => strContains text ind

/-- `extract_text_focused`: single pdfplumber pass under the
`max_pages` clamp, with optional simple table extraction. -/
def extract_text_focused (doc : FitzDoc) (options : POptions) :
    ExtractionResult :=
  let max_pages := min (options.max_pages.getD doc.pages.length)
    doc.pages.length
  let taken := doc.pages.take max_pages
  let pages := taken.enum.map fun ip =>
    let text := ip.2.text
    let word_count := pyWordCount text
    let withTables := options.extract_tables.getD true ∧ ip.2.rawTables ≠ []
    { pageNumber := ip.1 + 1
      content := text
      metadata :=
        { wordCount := word_count
          characterCount := text.length
          paragraphCount := some
            (if text ≠ "" then pyCount text "\n\n" + 1 else 0)
          hasImages := some false
          hasTables := some withTables
          estimatedReadingTime := word_count / 200 }
      simpleTables :=
        if withTables then some (format_simple_tables ip.2.rawTables)
        else none }
  { pages := pages
    fullText := String.intercalate "\n\n" (taken.map SrcPage.text)
    totalWordCount := (taken.map fun p => pyWordCount p.text).sum
    extractionMethod := "text_focused" }

/-- The per-page text density of `extract_hybrid`'s first phase:
`len(text.strip()) / (width * height) if width > 0 else 0` (the float
division raises when the page area is zero with positive width). -/
def hybridDensity (page : SrcPage) : Except PyErr ℚ :=
  if 0 < page.width then
    pyDivQ ((pyStrip page.text).length : ℚ) (page.width * page.height)
  else pure 0

/-- `needs_ocr`: density below 0.01 and OCR enabled. -/
def hybridNeedsOcr (options : POptions) (text_density : ℚ) : Bool :=
  decide (text_density < 1/100) && options.ocr_enabled.getD false

/-- The page's final text: OCR augmentation
(`f"{text}\n{ocr_text}".strip()`) when needed and non-empty. -/
def hybridText (options : POptions) (page : SrcPage)
    (text_density : ℚ) : String :=
  if hybridNeedsOcr options text_density ∧ page.ocrText ≠ "" then
    pyStrip (page.text ++ "\n" ++ page.ocrText)
  else page.text

/-- The per-page record of `extract_hybrid`'s second phase: optional
image extraction, then the equation branch.  The source's equation
call passes three arguments to the two-argument
`extract_equations_from_page`, so a page whose (possibly
OCR-augmented) text matches `_has_math_content` raises `TypeError`. -/
def hybridBuild (options : POptions) (i : Nat) (page : SrcPage)
    (text_density : ℚ) : Except PyErr (PageOut × String × Nat) :=
  if extractor_has_math_content (hybridText options page text_density) then
    Except.error PyErr.typeError
  else
    Except.ok
      ({ pageNumber := i + 1
         content := hybridText options page text_density
         metadata :=
           { wordCount := pyWordCount (hybridText options page text_density)
             characterCount := (hybridText options page text_density).length
             textDensity := some text_density
             hasImages := some
               (options.extract_images.getD false ∧
                 extract_page_images page (i + 1) ≠ [])
             hasTables := some false
             ocrApplied := some (hybridNeedsOcr options text_density)
             estimatedReadingTime :=
               pyWordCount (hybridText options page text_density) / 200 }
         images :=
           if options.extract_images.getD false ∧
               extract_page_images page (i + 1) ≠ [] then
             some (extract_page_images page (i + 1))
           else none },
       hybridText options page text_density,
       pyWordCount (hybridText options page text_density))

/-- One iteration of the hybrid per-page loop. -/
def hybridProcessPage (options : POptions) (ip : Nat × SrcPage) :
    Except PyErr (PageOut × String × Nat) :=
  match hybridDensity ip.2 with
  | .error e => .error e
  | .ok td => hybridBuild options ip.1 ip.2 td

/-- The sequential per-page loop of `extract_hybrid` (pages are
appended in order; the first failure aborts the strategy). -/
def hybridLoop (options : POptions) :
    List (Nat × SrcPage) → Except PyErr (List (PageOut × String × Nat))
  | [] => .ok []
  | ip :: rest =>
    match hybridProcessPage options ip with
    | .error e => .error e
    | .ok r =>
      match hybridLoop options rest with
      | .error e => .error e
      | .ok rs => .ok (r :: rs)

/-- `extract_hybrid`. -/
def extract_hybrid (doc : FitzDoc) (options : POptions) :
    Except PyErr ExtractionResult :=
  match hybridLoop options
    (doc.pages.take (min (options.max_pages.getD doc.pages.length)
      doc.pages.length)).enum with
  | .error e => .error e
  | .ok results =>
    .ok
      { pages := results.map (fun r => r.1)
        fullText := String.intercalate "\n\n"
          (results.map fun r => r.2.1)
        totalWordCount := (results.map fun r => r.2.2).sum
        extractionMethod := "hybrid" }

/-- `extract_table_focused`: a whole-document table pass, then a text
pass over every page (the `max_pages` option is not consulted by
either pass). -/
def extract_table_focused (doc : FitzDoc) (options : POptions) :
    ExtractionResult :=
  let tables := extract_tables_from_pdf doc options
  let pages := doc.pages.enum.map fun ip =>
    let text := ip.2.text
    let word_count := pyWordCount text
    let page_tables := tables.filter fun t => t.page_number = ip.1 + 1
    { pageNumber := ip.1 + 1
      content := text
      metadata :=
        { wordCount := word_count
          characterCount := text.length
          hasTables := some (page_tables ≠ [])
          estimatedReadingTime := word_count / 200 }
      tables := some page_tables }
  { pages := pages
    fullText := String.intercalate "\n\n" (doc.pages.map SrcPage.text)
    totalWordCount := (doc.pages.map fun p => pyWordCount p.text).sum
    totalTables := some tables.length
    extractionMethod := "table_focused" }

/-- `extract_math_focused`: the equation task (clamped by `max_pages`)
and a text pass over every page, merged by page number. -/
def extract_math_focused (reFind : String → String → List String)
    (reSubs : String → String) (doc : FitzDoc) (options : POptions) :
    ExtractionResult :=
  let equations := extract_math_from_pdf reFind reSubs doc options
  let basePages := doc.pages.enum.map fun ip =>
    let text := ip.2.text
    let word_count := pyWordCount text
    ({ pageNumber := ip.1 + 1
       content := text
       metadata :=
         { wordCount := word_count
           characterCount := text.length
           estimatedReadingTime := word_count / 200 } } : PageOut)
  let pages := basePages.map fun page =>
    let page_equations := equations.filter
      fun eq => eq.page_number = page.pageNumber
    if page_equations ≠ [] then
      { page with
          equations := some page_equations
          metadata := { page.metadata with hasEquations := some true } }
    else page
  { pages := pages
    fullText := String.intercalate "\n\n" (doc.pages.map SrcPage.text)
    totalWordCount := (doc.pages.map fun p => pyWordCount p.text).sum
    totalEquations := some equations.length
    equations := some equations
    extractionMethod := "math_focused" }

/-- Environment of the OCR subsystem: library availability, the
temp-space check, and the reported OCR method name. -/
structure OcrEnv where
  pdf2imageAvailable : Bool
  pdf2imageFails : Bool
  tmpSpaceOk : Bool
  ocrMethodName : String
  deriving Repr

/-- `_process_page_image` / `_process_page_data`: page record built
from one OCR'd page image. -/
def ocrPageOut (ocrMethod : String) (page_num : Nat) (text : String) :
    PageOut :=
  let word_count := pyWordCount text
  { pageNumber := page_num
    content := text
    metadata :=
      { wordCount := word_count
        characterCount := text.length
        ocrMethod := some ocrMethod
        estimatedReadingTime := word_count / 200 } }

/-- Response assembly shared by both OCR paths: pages, joined full
text, summed word counts. -/
def assembleOcrResult (results : List PageOut) : ExtractionResult :=
  { pages := results
    fullText := String.intercalate "\n\n" (results.map PageOut.content)
    totalWordCount := (results.map fun p => p.metadata.wordCount).sum
    extractionMethod := "ocr" }

/-- The batched concurrent OCR stage shared by both paths: tasks are
gathered in `chunks5` groups, group `N+1` only after group `N`. -/
def runOcrBatches (env : OcrEnv) (page_images : List (Nat × String)) :
    List PageOut :=
  (chunks5 page_images).flatMap fun batch =>
    batch.map fun pi => ocrPageOut env.ocrMethodName pi.1 pi.2

/-- `_process_with_fitz`: render each page under the `max_pages` clamp,
then batched OCR. -/
def process_with_fitz (env : OcrEnv) (doc : FitzDoc)
    (options : POptions) : ExtractionResult :=
  let max_pages := min (options.max_pages.getD doc.pages.length)
    doc.pages.length
  let page_images := (doc.pages.take max_pages).enum.map
    fun ip => (ip.1 + 1, ip.2.ocrText)
  assembleOcrResult (runOcrBatches env page_images)

/-- `process_pdf_with_ocr`: temp-space check (raising `ValueError` when
it fails), pdf2image conversion (`first_page=1, last_page=max_pages`)
when available — falling back to the fitz path on conversion failure or
unavailability — then batched OCR. -/
def process_pdf_with_ocr (env : OcrEnv) (doc : FitzDoc)
    (options : POptions) : Except PyErr ExtractionResult :=
  if ¬ env.tmpSpaceOk then Except.error PyErr.valueError
  else if env.pdf2imageAvailable then
    if env.pdf2imageFails then pure (process_with_fitz env doc options)
    else
      let imgs :=
        match options.max_pages with
        | none => doc.pages
        | some m => doc.pages.take m
      let page_images := imgs.enum.map fun ip => (ip.1 + 1, ip.2.ocrText)
      pure (assembleOcrResult (runOcrBatches env page_images))
  else pure (process_with_fitz env doc options)

/-- `extract_ocr_heavy` simply delegates. -/
def extract_ocr_heavy (env : OcrEnv) (doc : FitzDoc)
    (options : POptions) : Except PyErr ExtractionResult :=
  process_pdf_with_ocr env doc options

/-- Oracles every strategy dispatch may need. -/
structure ExtractEnv where
  ocr : OcrEnv
  reFind : String → String → List String
  reSubs : String → String

/-- A concrete OCR environment (pdf2image absent, temp space fine). -/
def simpleOcrEnv : OcrEnv :=
  { pdf2imageAvailable := false, pdf2imageFails := false
    tmpSpaceOk := true, ocrMethodName := "none" }

/-- A concrete extraction environment whose regex oracle finds
nothing (the behaviour of `re` on the blank pages used in concrete
instances). -/
def simpleEnv : ExtractEnv :=
  { ocr := simpleOcrEnv, reFind := fun _ _ => [], reSubs := fun s => s }

/-- `extract_with_strategy`: dictionary dispatch with silent fallback
to `extract_text_focused` for an unknown strategy name. -/
def extract_with_strategy (env : ExtractEnv) (doc : FitzDoc)
    (options : POptions) (strategy : String) :
    Except PyErr ExtractionResult :=
  if strategy = "text_focus" then pure (extract_text_focused doc options)
  else if strategy = "ocr_heavy" then process_pdf_with_ocr env.ocr doc options
  else if strategy = "hybrid" then extract_hybrid doc options
  else if strategy = "table_focus" then
    pure (extract_table_focused doc options)
  else if strategy = "math_focus" then
    pure (extract_math_focused env.reFind env.reSubs doc options)
  else pure (extract_text_focused doc options)

/-! ## Cache key (src/app/utils/cache.py, src/app/parsers/pdf/__init__.py) -/

/-- A JSON-serializable option value. -/
inductive OptVal where
  | str (s : String)
  | bool (b : Bool)
  | int (n : Int)
  deriving DecidableEq, Repr

/-- JSON rendering of one value (string escaping not modelled: option
values are plain identifiers). -/
def jsonVal : OptVal → String
  | .str s => "\"" ++ s ++ "\""
  | .bool b => if b then "true" else "false"
  | .int n => toString n

/-- Code-point lexicographic comparison of character lists — the string
order `json.dumps(..., sort_keys=True)` sorts keys by. -/
def charListLe : List Char → List Char → Bool
  | [], _ => true
  | _ :: _, [] => false
  | c :: cs, d :: ds =>
    if c.toNat < d.toNat then true
    else if d.toNat < c.toNat then false
    else charListLe cs ds

/-- Key comparison for the sorted JSON dump. -/
def keyLe (a b : String) : Bool := charListLe a.data b.data

/-- Stable insertion of one pair into a key-sorted list. -/
def insertKV (kv : String × OptVal) :
    List (String × OptVal) → List (String × OptVal)
  | [] => [kv]
  | x :: xs =>
    if keyLe kv.1 x.1 then kv :: x :: xs else x :: insertKV kv xs

/-- Stable sort of the option pairs by key (the normalization
`sort_keys=True` performs). -/
def sortKV : List (String × OptVal) → List (String × OptVal)
  | [] => []
  | x :: xs => insertKV x (sortKV xs)

/-- `json.dumps(options, sort_keys=True)`. -/
def json_dumps_sorted (options : List (String × OptVal)) : String :=
  "\x7b" ++ String.intercalate ", "
    ((sortKV options).map fun kv => "\"" ++ kv.1 ++ "\": " ++ jsonVal kv.2)
    ++ "\x7d"

/-- `get_cache_key(file_id, options)`: md5 over
`f"{file_id}:{options_str}"` (payload-level model, see header). -/
def get_cache_key (file_id : String)
    (options : List (String × OptVal)) : String :=
  md5 (file_id ++ ":" ++ json_dumps_sorted options)

/-- The cache key `parse_pdf` derives (its line
`cache_key = get_cache_key(str(file_path), options)`): the file's
*path string* is the identity — the file's bytes and the analyzer's
`file_hash` do not enter the key. -/
def parsePdfCacheKey (file_path : String)
    (options : List (String × OptVal)) : String :=
  get_cache_key file_path options

/-! ## Metadata assembly (src/app/parsers/pdf/__init__.py and
src/app/parsers/pdf/metadata_extractor.py) -/

/-- Raw `doc.metadata` dict of fitz. -/
structure FitzMeta where
  title : Option String := none
  author : Option String := none
  subject : Option String := none
  keywords : Option String := none
  deriving Repr

/-- `_clean_string`. -/
def clean_string : Option String → Option String
  | none => none
  | some v =>
    let s := pyReplace (pyStrip v) "\x00" ""
    if s = "" then none else some s

/-- `_extract_keywords`: first separator found among `,`/`;`/`|`, else
whitespace split; keeps trimmed pieces longer than one character. -/
def extract_keywords : Option String → List String
  | none => []
  | some s =>
    if s = "" then []
    else if strContains s "," then
      ((strSplitOnChar s ',').map pyStrip).filter fun k => 1 < k.length
    else if strContains s ";" then
      ((strSplitOnChar s ';').map pyStrip).filter fun k => 1 < k.length
    else if strContains s "|" then
      ((strSplitOnChar s '|').map pyStrip).filter fun k => 1 < k.length
    else
      ((pySplitWs s).map pyStrip).filter fun k => 1 < k.length

/-- The part of `extract_pdf_metadata`'s result that
`_build_metadata_with_fallback` reads (title/author/subject/keywords;
`none` input = the whole extraction failed and returned `{}`). -/
structure PdfMeta where
  title : Option String := none
  author : Option String := none
  subject : Option String := none
  keywords : List String := []
  deriving Repr

/-- `extract_pdf_metadata`, restricted to the fields the assembler
reads; a `none` argument is the `except` branch returning `{}`. -/
def extract_pdf_metadata (fitz_meta : Option FitzMeta) : PdfMeta :=
  match fitz_meta with
  | none => {}
  | some fm =>
    { title := clean_string fm.title
      author := clean_string fm.author
      subject := clean_string fm.subject
      keywords := extract_keywords fm.keywords }

/-- The assembled `metadata` dictionary. -/
structure DocMetadata where
  title : Option String
  author : Option String
  subject : Option String
  keywords : List String
  language : String
  totalPages : Nat
  totalWordCount : Nat
  estimatedTotalReadingTime : Nat
  documentType : String
  academicLevel : Option String
  deriving DecidableEq, Repr

/-- `_build_metadata_with_fallback`.  Note the source defaults
`subject` to `"general"` *before* the expression
`subject or pdf_metadata.get("subject")`, so the embedded value is
reachable only when the caller explicitly passes a falsy subject. -/
def build_metadata_with_fallback (pdf_metadata : PdfMeta)
    (characteristics : PDFCharacteristics)
    (extraction_result : ExtractionResult) (options : POptions) :
    DocMetadata :=
  let language := options.language.getD "en"
  let subject := options.subject.getD "general"
  let document_type := options.document_type.getD "mixed"
  { title := pdf_metadata.title
    author := pdf_metadata.author
    subject :=
      if subject ≠ "" then some subject else pdf_metadata.subject
    keywords := pdf_metadata.keywords
    language := language
    totalPages := characteristics.total_pages
    totalWordCount := extraction_result.totalWordCount
    estimatedTotalReadingTime := extraction_result.totalWordCount / 200
    documentType := document_type
    academicLevel := options.academic_level }

/-! ## Helper lemmas -/

theorem chunks5_mem_length {α : Type} :
    ∀ (l : List α) (b : List α), b ∈ chunks5 l → b.length ≤ 5 := by
  intro l
  induction l using chunks5.induct with
  | case1 =>
    intro b hb
    rw [chunks5] at hb
    exact absurd hb (List.not_mem_nil b)
  | case2 x xs ih =>
    intro b hb
    rw [chunks5] at hb
    rcases List.mem_cons.mp hb with h | h
    · subst h
      simp only [List.length_cons, List.length_take]
      omega
    · exact ih b h

theorem chunks5_flatten {α : Type} :
    ∀ l : List α, (chunks5 l).flatten = l := by
  intro l
  induction l using chunks5.induct with
  | case1 => rw [chunks5]; rfl
  | case2 x xs ih =>
    rw [chunks5]
    simp only [List.flatten_cons, ih]
    conv_rhs => rw [← List.take_append_drop 4 xs]
    simp [List.cons_append]

theorem chunks5_flatMap_map {α β : Type} (g : α → β) :
    ∀ l : List α, (chunks5 l).flatMap (fun b => b.map g) = l.map g := by
  intro l
  induction l using chunks5.induct with
  | case1 => rw [chunks5]; rfl
  | case2 x xs ih =>
    rw [chunks5]
    simp only [List.flatMap_cons, ih, List.map_cons]
    conv_rhs => rw [← List.take_append_drop 4 xs]
    simp [List.map_append, List.cons_append]

theorem enumFrom_map_fst_succ {α : Type} :
    ∀ (l : List α) (n : Nat),
      (List.enumFrom n l).map (fun ip => ip.1 + 1) =
        List.range' (n + 1) l.length := by
  intro l
  induction l with
  | nil => intro n; rfl
  | cons a as ih =>
    intro n
    simp only [List.enumFrom_cons, List.map_cons, List.length_cons, ih,
      List.range'_succ]

theorem enumFrom_map_snd {α β : Type} (g : α → β) :
    ∀ (l : List α) (n : Nat),
      (List.enumFrom n l).map (fun ip => g ip.2) = l.map g := by
  intro l
  induction l with
  | nil => intro n; rfl
  | cons a as ih =>
    intro n
    simp only [List.enumFrom_cons, List.map_cons, ih]

/-! ## C8 -/

/-- C8: the analyzer samples every page of a document of at most 20
pages; for a larger document it samples exactly the union of the first
10 pages, the 5-page middle window centred on `total/2`, and the last
5 pages — in particular a 15-page document samples all 15 pages and a
100-page document samples exactly 20 pages. -/
theorem C8_sample_pages :
    (∀ (total p : Nat),
      p ∈ get_sample_pages total ↔
        ((total ≤ 20 ∧ p < total) ∨
         (20 < total ∧
           (p < 10 ∨
            (total / 2 - 2 ≤ p ∧ p < total / 2 + 3) ∨
            (total - 5 ≤ p ∧ p < total))))) ∧
    get_sample_pages 15 = List.range 15 ∧
    get_sample_pages 100 =
      List.range 10 ++ List.range' 48 5 ++ List.range' 95 5 ∧
    (get_sample_pages 100).length = 20 := by
  refine ⟨?_, by decide, by decide, by decide⟩
  intro total p
  unfold get_sample_pages
  by_cases h : total ≤ 20
  · simp only [if_pos h, List.mem_range]
    omega
  · simp only [if_neg h, List.mem_dedup, List.mem_append, List.mem_range,
      List.mem_range'_1]
    omega

/-! ## C9 -/

/-- C9: during OCR-heavy extraction both code paths split the page-OCR
tasks with `chunks5` and gather one chunk at a time, so every
concurrently-in-flight group has at most 5 tasks, the groups partition
the task list in order (group N+1 strictly after group N), and the
batched run produces exactly the per-page results in page order. -/
theorem C9_batch_bound (env : OcrEnv) (page_images : List (Nat × String)) :
    (∀ batch ∈ chunks5 page_images, batch.length ≤ 5) ∧
    (chunks5 page_images).flatten = page_images ∧
    runOcrBatches env page_images =
      page_images.map (fun pi => ocrPageOut env.ocrMethodName pi.1 pi.2) := by
  refine ⟨fun b hb => chunks5_mem_length page_images b hb,
    chunks5_flatten page_images, ?_⟩
  unfold runOcrBatches
  exact chunks5_flatMap_map _ page_images

/-! ## C10 -/

/-- C10: for a document that opens with zero pages, `analyze_pdf`
returns normally with all densities and the per-page text average
equal to zero, and no `ZeroDivisionError` arises inside the analysis
body (every division sits behind its `if total_pages > 0` /
`if sample_size > 0` / `if pages_to_check` guard; the body instead
stops at the `NameError` of the leaked loop variable `text`, which the
surrounding `except` turns into the zeroed fingerprint). -/
theorem C10_zero_pages (bs : List Nat) (re : String → String → Bool) :
    (analyze_pdf { content := some bs, doc := some ⟨[]⟩, reSearch := re } =
      .ok (defaultCharacteristics (md5 (toString bs)))) ∧
    (defaultCharacteristics (md5 (toString bs))).text_density = 0 ∧
    (defaultCharacteristics (md5 (toString bs))).image_density = 0 ∧
    (defaultCharacteristics (md5 (toString bs))).avg_text_per_page = 0 ∧
    analyzeDoc re ⟨[]⟩ (md5 (toString bs)) ≠
      Except.error PyErr.zeroDivisionError := by
  refine ⟨rfl, rfl, rfl, rfl, ?_⟩
  intro h
  simp [analyzeDoc, get_sample_pages, initAcc, detect_tables,
    detect_tablesE, pyFloorDiv, pyDivQ] at h

/-! ## C6 -/

/-- C6 counterexample: the claim says `analyze_pdf` never raises, even
for an unreadable input — but `_calculate_file_hash` runs before the
`try` block, so a file whose bytes cannot be read makes `analyze_pdf`
propagate the I/O failure instead of returning a fingerprint. -/
theorem C6_counterexample :
    analyze_pdf
      { content := none, doc := none, reSearch := (fun _ _ => false) } =
      Except.error PyErr.ioError := rfl

/-- C6 (amended): once the file's bytes are readable, `analyze_pdf`
never raises — for any document (including one `fitz.open` cannot
open, where it returns the zeroed fingerprint whose
`recommended_strategy` is `text_focus`). -/
theorem C6_amended (input : AnalyzerInput) (bs : List Nat)
    (h : input.content = some bs) :
    (∃ c, analyze_pdf input = .ok c) ∧
    (input.doc = none →
      analyze_pdf input = .ok (defaultCharacteristics (md5 (toString bs)))) ∧
    (defaultCharacteristics (md5 (toString bs))).recommended_strategy =
      "text_focus" := by
  obtain ⟨co, d, re⟩ := input
  dsimp only at h
  subst h
  refine ⟨?_, ?_, rfl⟩
  · cases d with
    | none => exact ⟨defaultCharacteristics (md5 (toString bs)), rfl⟩
    | some doc =>
      cases ha : analyzeDoc re doc (md5 (toString bs)) with
      | ok c =>
        exact ⟨c, by simp [analyze_pdf, calculate_file_hash, ha]⟩
      | error e =>
        exact ⟨defaultCharacteristics (md5 (toString bs)),
          by simp [analyze_pdf, calculate_file_hash, ha]⟩
  · intro hd
    dsimp only at hd
    subst hd
    rfl

/-- C6 witness: the amended theorem applied to a concrete readable but
unopenable input. -/
theorem C6_witness :
    analyze_pdf
      { content := some [37, 80], doc := none,
        reSearch := (fun _ _ => false) } =
      .ok (defaultCharacteristics (md5 (toString [37, 80]))) :=
  (C6_amended
    { content := some [37, 80], doc := none,
      reSearch := (fun _ _ => false) } [37, 80] rfl).2.1 rfl

/-! ## C5 -/

/-- C5 counterexample: with no caller-supplied subject and a document
whose embedded metadata carries subject `physics`, the assembled
subject is the default `general`, not the embedded value — the
`options.get("subject", "general")` default is applied before
`subject or pdf_metadata.get("subject")`, so the embedded fallback is
unreachable. -/
theorem C5_counterexample :
    (build_metadata_with_fallback { subject := some "physics" }
      (defaultCharacteristics "h")
      { pages := [], fullText := "", totalWordCount := 0,
        extractionMethod := "" } {}).subject = some "general" ∧
    (some "general" : Option String) ≠ some "physics" :=
  ⟨rfl, by decide⟩

/-- C5 (amended): the assembled subject is the caller's option when one
is supplied (and non-empty); otherwise the computed default `general`
applies directly, and the document-embedded subject is consulted only
when the caller explicitly passes an empty subject; `language` and
`document_type` come from the options (with defaults `en` / `mixed`)
and never consult the embedded metadata. -/
theorem C5_amended (pdf_metadata : PdfMeta) (chars : PDFCharacteristics)
    (result : ExtractionResult) (options : POptions) :
    (options.subject = none →
      (build_metadata_with_fallback pdf_metadata chars result
        options).subject = some "general") ∧
    (∀ s, options.subject = some s → s ≠ "" →
      (build_metadata_with_fallback pdf_metadata chars result
        options).subject = some s) ∧
    (options.subject = some "" →
      (build_metadata_with_fallback pdf_metadata chars result
        options).subject = pdf_metadata.subject) ∧
    (build_metadata_with_fallback pdf_metadata chars result
      options).language = options.language.getD "en" ∧
    (build_metadata_with_fallback pdf_metadata chars result
      options).documentType = options.document_type.getD "mixed" := by
  unfold build_metadata_with_fallback
  refine ⟨?_, ?_, ?_, rfl, rfl⟩
  · intro h
    rw [h]
    rfl
  · intro s hs hne
    rw [hs]
    show (if s ≠ "" then some s else pdf_metadata.subject) = some s
    rw [if_pos hne]
  · intro h
    rw [h]
    rfl

/-- C5 witness: the amended theorem at a concrete option-free input. -/
theorem C5_witness :
    (build_metadata_with_fallback { subject := some "physics" }
      (defaultCharacteristics "h")
      { pages := [], fullText := "", totalWordCount := 0,
        extractionMethod := "" } {}).subject = some "general" :=
  (C5_amended { subject := some "physics" } (defaultCharacteristics "h")
    { pages := [], fullText := "", totalWordCount := 0,
      extractionMethod := "" } {}).1 rfl

/-! ## C2 -/

theorem charListLe_nil_left (ys : List Char) : charListLe [] ys = true := rfl

theorem charListLe_antisymm :
    ∀ xs ys, charListLe xs ys = true → charListLe ys xs = true →
      xs = ys := by
  intro xs
  induction xs with
  | nil =>
    intro ys _ h2
    cases ys with
    | nil => rfl
    | cons d ds => exact absurd h2 (by rw [charListLe]; simp)
  | cons c cs ih =>
    intro ys h1 h2
    cases ys with
    | nil => exact absurd h1 (by rw [charListLe]; simp)
    | cons d ds =>
      by_cases hcd : c.toNat < d.toNat
      · have hdc : ¬ d.toNat < c.toNat := by omega
        rw [charListLe, if_neg hdc, if_pos hcd] at h2
        exact absurd h2 (by simp)
      · by_cases hdc : d.toNat < c.toNat
        · rw [charListLe, if_neg hcd, if_pos hdc] at h1
          exact absurd h1 (by simp)
        · have hc : c = d := by
            have h3 : c.toNat = d.toNat := by omega
            exact Char.eq_of_val_eq (UInt32.ext h3)
          subst hc
          rw [charListLe, if_neg hcd, if_neg hdc] at h1
          rw [charListLe, if_neg hdc, if_neg hcd] at h2
          rw [ih ds h1 h2]

theorem charListLe_trans :
    ∀ xs ys zs, charListLe xs ys = true → charListLe ys zs = true →
      charListLe xs zs = true := by
  intro xs
  induction xs with
  | nil => intro ys zs _ _; rfl
  | cons c cs ih =>
    intro ys zs h1 h2
    cases ys with
    | nil => exact absurd h1 (by rw [charListLe]; simp)
    | cons d ds =>
      cases zs with
      | nil => exact absurd h2 (by rw [charListLe]; simp)
      | cons e es =>
        rw [charListLe] at h1 h2 ⊢
        by_cases hcd : c.toNat < d.toNat
        · rw [if_pos hcd] at h1
          by_cases hde : d.toNat < e.toNat
          · rw [if_pos (show c.toNat < e.toNat by omega)]
          · by_cases hed : e.toNat < d.toNat
            · rw [if_neg hde, if_pos hed] at h2
              exact absurd h2 (by simp)
            · rw [if_pos (show c.toNat < e.toNat by omega)]
        · by_cases hdc : d.toNat < c.toNat
          · rw [if_neg hcd, if_pos hdc] at h1
            exact absurd h1 (by simp)
          · rw [if_neg hcd, if_neg hdc] at h1
            by_cases hde : d.toNat < e.toNat
            · rw [if_pos (show c.toNat < e.toNat by omega)]
            · by_cases hed : e.toNat < d.toNat
              · rw [if_neg hde, if_pos hed] at h2
                exact absurd h2 (by simp)
              · rw [if_neg hde, if_neg hed] at h2
                rw [if_neg (show ¬ c.toNat < e.toNat by omega),
                  if_neg (show ¬ e.toNat < c.toNat by omega)]
                exact ih ds es h1 h2

theorem charListLe_total :
    ∀ xs ys, charListLe xs ys = true ∨ charListLe ys xs = true := by
  intro xs
  induction xs with
  | nil => intro ys; exact Or.inl rfl
  | cons c cs ih =>
    intro ys
    cases ys with
    | nil => exact Or.inr rfl
    | cons d ds =>
      by_cases h1 : c.toNat < d.toNat
      · exact Or.inl (by rw [charListLe, if_pos h1])
      · by_cases h2 : d.toNat < c.toNat
        · exact Or.inr (by rw [charListLe, if_pos h2])
        · rcases ih ds with h | h
          · exact Or.inl (by rw [charListLe, if_neg h1, if_neg h2]; exact h)
          · exact Or.inr (by rw [charListLe, if_neg h2, if_neg h1]; exact h)

theorem keyLe_antisymm {a b : String} (h1 : keyLe a b = true)
    (h2 : keyLe b a = true) : a = b := by
  have hd := charListLe_antisymm a.data b.data h1 h2
  cases a; cases b; simp_all

theorem keyLe_total (a b : String) : keyLe a b = true ∨ keyLe b a = true :=
  charListLe_total a.data b.data

theorem keyLe_trans {a b c : String} (h1 : keyLe a b = true)
    (h2 : keyLe b c = true) : keyLe a c = true :=
  charListLe_trans a.data b.data c.data h1 h2

theorem insertKV_perm (kv : String × OptVal) :
    ∀ l, (insertKV kv l).Perm (kv :: l) := by
  intro l
  induction l with
  | nil => exact List.Perm.refl _
  | cons x xs ih =>
    rw [insertKV]
    by_cases h : keyLe kv.1 x.1
    · rw [if_pos h]
    · rw [if_neg h]
      exact (ih.cons x).trans (List.Perm.swap kv x xs)

theorem sortKV_perm : ∀ l, (sortKV l).Perm l := by
  intro l
  induction l with
  | nil => exact List.Perm.refl _
  | cons x xs ih =>
    rw [sortKV]
    exact (insertKV_perm x (sortKV xs)).trans (ih.cons x)

theorem insertKV_pairwise (kv : String × OptVal) :
    ∀ l, l.Pairwise (fun a b => keyLe a.1 b.1 = true) →
      (insertKV kv l).Pairwise (fun a b => keyLe a.1 b.1 = true) := by
  intro l
  induction l with
  | nil =>
    intro _
    rw [insertKV]
    simp
  | cons x xs ih =>
    intro hp
    rcases List.pairwise_cons.mp hp with ⟨hx, hxs⟩
    rw [insertKV]
    by_cases h : keyLe kv.1 x.1
    · rw [if_pos h]
      refine List.pairwise_cons.mpr ⟨?_, hp⟩
      intro y hy
      rcases List.mem_cons.mp hy with rfl | hy'
      · exact h
      · exact keyLe_trans h (hx y hy')
    · rw [if_neg h]
      have hxk : keyLe x.1 kv.1 = true := by
        rcases keyLe_total kv.1 x.1 with h' | h'
        · exact absurd h' h
        · exact h'
      refine List.pairwise_cons.mpr ⟨?_, ih hxs⟩
      intro y hy
      have : y ∈ kv :: xs := (insertKV_perm kv xs).mem_iff.mp hy
      rcases List.mem_cons.mp this with rfl | hy'
      · exact hxk
      · exact hx y hy'

theorem sortKV_pairwise :
    ∀ l, (sortKV l).Pairwise (fun a b => keyLe a.1 b.1 = true) := by
  intro l
  induction l with
  | nil => simp [sortKV]
  | cons x xs ih =>
    rw [sortKV]
    exact insertKV_pairwise x (sortKV xs) ih

theorem sortedKV_perm_eq :
    ∀ l1 l2 : List (String × OptVal),
      l1.Pairwise (fun a b => keyLe a.1 b.1 = true) →
      l2.Pairwise (fun a b => keyLe a.1 b.1 = true) →
      l1.Perm l2 → (l1.map Prod.fst).Nodup → l1 = l2 := by
  intro l1
  induction l1 with
  | nil =>
    intro l2 _ _ hp _
    exact (List.Perm.nil_eq hp).symm ▸ rfl
  | cons a t1 ih =>
    intro l2 h1 h2 hp hnd
    cases l2 with
    | nil =>
      have := hp.eq_nil
      simp at this
    | cons b t2 =>
      rcases List.pairwise_cons.mp h1 with ⟨ha1, ht1⟩
      rcases List.pairwise_cons.mp h2 with ⟨hb2, ht2⟩
      have hnd' : a.1 ∉ t1.map Prod.fst ∧ (t1.map Prod.fst).Nodup := by
        rw [List.map_cons] at hnd
        exact List.nodup_cons.mp hnd
      have hab : a = b := by
        have ha2 : a ∈ b :: t2 := hp.mem_iff.mp (List.mem_cons_self a t1)
        rcases List.mem_cons.mp ha2 with h | h
        · exact h
        · have hb1 : b ∈ a :: t1 :=
            hp.mem_iff.mpr (List.mem_cons_self b t2)
          rcases List.mem_cons.mp hb1 with h' | h'
          · exact h'.symm
          · have hkey : a.1 = b.1 :=
              keyLe_antisymm (ha1 b h') (hb2 a h)
            have : a.1 ∈ t1.map Prod.fst :=
              hkey ▸ List.mem_map_of_mem Prod.fst h'
            exact absurd this hnd'.1
      subst hab
      have hp' := hp.cons_inv
      rw [ih t2 ht1 ht2 hp' hnd'.2]

/-- C2 counterexample: two byte-identical files stored at
`/tmp/a.pdf` and `/tmp/b.pdf`, parsed with one and the same options
map, receive different cache keys — `parse_pdf` keys the cache on
`str(file_path)`, never on the document's bytes or the analyzer's
content hash, so the second parse cannot hit the first one's entry. -/
theorem C2_counterexample :
    parsePdfCacheKey "/tmp/a.pdf" [("ocr_enabled", OptVal.bool true)] ≠
      parsePdfCacheKey "/tmp/b.pdf" [("ocr_enabled", OptVal.bool true)] := by
  decide

/-- C2 (amended): the cache key `parse_pdf` derives is a hash of the
file's path string together with the JSON dump of the options sorted
by key: two parses of the same path whose options maps hold the same
key/value pairs (in any dict order, keys distinct) always produce the
same key.  Content identity is not part of the key (see the
counterexample). -/
theorem C2_amended (path : String) (o1 o2 : List (String × OptVal))
    (hp : o1.Perm o2) (hnd : (o1.map Prod.fst).Nodup) :
    parsePdfCacheKey path o1 = parsePdfCacheKey path o2 := by
  suffices h : sortKV o1 = sortKV o2 by
    unfold parsePdfCacheKey get_cache_key json_dumps_sorted
    rw [h]
  apply sortedKV_perm_eq _ _ (sortKV_pairwise o1) (sortKV_pairwise o2)
  · exact (sortKV_perm o1).trans (hp.trans (sortKV_perm o2).symm)
  · exact ((sortKV_perm o1).map Prod.fst).nodup_iff.mpr hnd

/-- C2 witness: the amended theorem applied to two orderings of one
concrete options map. -/
theorem C2_witness :
    parsePdfCacheKey "/tmp/a.pdf"
      [("extract_tables", OptVal.bool true), ("ocr_enabled", OptVal.bool false)] =
    parsePdfCacheKey "/tmp/a.pdf"
      [("ocr_enabled", OptVal.bool false), ("extract_tables", OptVal.bool true)] :=
  C2_amended "/tmp/a.pdf" _ _
    (List.Perm.swap ("ocr_enabled", OptVal.bool false)
      ("extract_tables", OptVal.bool true) [])
    (by decide)

/-! ## C7 -/

theorem stoList_append (a b : String) :
    (a ++ b).toList = a.toList ++ b.toList :=
  String.data_append a b

theorem strContains_iff (s pat : String) :
    strContains s pat = true ↔ pat.toList <:+: s.toList := by
  simp [strContains]

theorem infix_extend_left {α : Type} (p : List α) {x l : List α}
    (h : x <:+: l) : x <:+: p ++ l :=
  h.trans ⟨p, [], by simp⟩

theorem infix_extend_right {α : Type} (q : List α) {x l : List α}
    (h : x <:+: l) : x <:+: l ++ q :=
  h.trans ⟨[], q, by simp⟩

theorem infix_flatten {α : Type} :
    ∀ (L : List (List α)) (d : List α), d ∈ L → d <:+: L.flatten := by
  intro L
  induction L with
  | nil => intro d h; exact absurd h (List.not_mem_nil d)
  | cons a L' ih =>
    intro d h
    rw [List.flatten_cons]
    rcases List.mem_cons.mp h with rfl | h'
    · exact infix_extend_right _ (List.infix_refl d)
    · exact infix_extend_left a (ih d h')

theorem intercalate_go_infix (sep : String) :
    ∀ (as : List String) (acc x : String),
      (x ∈ as ∨ x.toList <:+: acc.toList) →
      x.toList <:+: (String.intercalate.go acc sep as).toList := by
  intro as
  induction as with
  | nil =>
    intro acc x h
    rcases h with h | hinf
    · exact absurd h (List.not_mem_nil x)
    · simpa only [String.intercalate.go] using hinf
  | cons a as ih =>
    intro acc x h
    show x.toList <:+: (String.intercalate.go (acc ++ sep ++ a) sep as).toList
    apply ih
    rcases h with hmem | hinf
    · rcases List.mem_cons.mp hmem with rfl | h'
      · right
        refine ⟨(acc ++ sep).toList, [], ?_⟩
        simp [stoList_append]
      · left; exact h'
    · right
      have : (acc ++ sep ++ a).toList =
          acc.toList ++ (sep.toList ++ a.toList) := by
        simp [stoList_append]
      rw [this]
      exact infix_extend_right _ hinf

theorem mem_infix_intercalate (sep x : String) :
    ∀ l, x ∈ l → x.toList <:+: (String.intercalate sep l).toList := by
  intro l h
  cases l with
  | nil => exact absurd h (List.not_mem_nil x)
  | cons a as =>
    show x.toList <:+: (String.intercalate.go a sep as).toList
    apply intercalate_go_infix
    rcases List.mem_cons.mp h with rfl | h'
    · right; exact List.infix_refl _
    · left; exact h'

theorem mem_infix_join (x : String) :
    ∀ l, x ∈ l → x.toList <:+: (String.join l).toList := by
  intro l h
  rw [String.join_eq]
  show x.toList <:+: (l.map String.data).flatten
  exact infix_flatten _ _ (List.mem_map_of_mem String.data h)

/-- C7 counterexample: for headers `["Name","Age"]` and rows
`[["Ann","30"]]` the generated HTML does **not** contain the substring
`<td>Ann</td><td>30</td>` — `_to_html` emits every `<td>` cell on its
own indented line, so the two cells are separated by a newline and
four spaces. -/
theorem C7_counterexample :
    strContains (to_html ["Name", "Age"] [["Ann", "30"]])
      "<td>Ann</td><td>30</td>" = false := by
  decide

/-- C7 (amended): the three representations generated from the same
headers/rows contain the same cell values — every data cell appears in
the markdown, appears wrapped as `<td>cell</td>` in the HTML (on its
own line), and appears in the CSV whenever it contains no
CSV-special character; concretely, for headers `["Name","Age"]` and
rows `[["Ann","30"]]` the markdown contains `| Ann | 30 |`, the CSV
contains `Ann,30`, and the HTML contains `<td>Ann</td>` and
`<td>30</td>` as separate lines. -/
theorem C7_amended :
    (∀ (headers : List String) (rows : List (List String))
       (row : List String) (cell : String),
      row ∈ rows → cell ∈ row →
      strContains (to_markdown headers rows) cell = true ∧
      strContains (to_html headers rows)
        ("<td>" ++ cell ++ "</td>") = true ∧
      (strContains cell "," = false → strContains cell "\"" = false →
       strContains cell "\n" = false → strContains cell "\r" = false →
       strContains (to_csv headers rows) cell = true)) ∧
    strContains (to_markdown ["Name", "Age"] [["Ann", "30"]])
      "| Ann | 30 |" = true ∧
    strContains (to_csv ["Name", "Age"] [["Ann", "30"]]) "Ann,30" = true ∧
    strContains (to_html ["Name", "Age"] [["Ann", "30"]])
      "<td>Ann</td>" = true ∧
    strContains (to_html ["Name", "Age"] [["Ann", "30"]])
      "<td>30</td>" = true := by
  refine ⟨?_, by decide, by decide, by decide, by decide⟩
  intro headers rows row cell hrow hcell
  have hrows : rows ≠ [] := by
    intro h; subst h; exact absurd hrow (List.not_mem_nil row)
  refine ⟨?_, ?_, ?_⟩
  · -- markdown
    rw [strContains_iff, to_markdown, if_neg (by simp [hrows])]
    have hline : ("| " ++ String.intercalate " | " row ++ " |") ∈
        ((if headers ≠ [] then
            ["| " ++ String.intercalate " | " headers ++ " |",
             "| " ++ String.intercalate " | "
               (headers.map fun _ => "---") ++ " |"]
          else []) ++
          rows.map fun r => "| " ++ String.intercalate " | " r ++ " |") :=
      List.mem_append_right _ (List.mem_map_of_mem _ hrow)
    refine List.IsInfix.trans ?_ (mem_infix_intercalate "\n" _ _ hline)
    have h1 : cell.toList <:+: (String.intercalate " | " row).toList :=
      mem_infix_intercalate " | " cell row hcell
    have h2 : ("| " ++ String.intercalate " | " row ++ " |").toList =
        "| ".toList ++ ((String.intercalate " | " row).toList ++
          " |".toList) := by
      simp [stoList_append]
    rw [h2]
    exact infix_extend_left _ (infix_extend_right _ h1)
  · -- html
    rw [strContains_iff, to_html]
    have hline : ("    <td>" ++ cell ++ "</td>") ∈
        (["<table>"] ++
          (if headers ≠ [] then
            ["  <thead><tr>"] ++
              headers.map (fun h => "    <th>" ++ h ++ "</th>") ++
              ["  </tr></thead>"]
          else []) ++
          ["  <tbody>"] ++
          (rows.flatMap fun r =>
            ["  <tr>"] ++
              r.map (fun c => "    <td>" ++ c ++ "</td>") ++
              ["  </tr>"]) ++
          ["  </tbody>", "</table>"]) := by
      refine List.mem_append_left _ (List.mem_append_right _ ?_)
      refine List.mem_flatMap.mpr ⟨row, hrow, ?_⟩
      exact List.mem_append_left _
        (List.mem_append_right _ (List.mem_map_of_mem _ hcell))
    refine List.IsInfix.trans ?_ (mem_infix_intercalate "\n" _ _ hline)
    refine ⟨"    ".toList, [], ?_⟩
    simp only [stoList_append, List.append_nil]
    show "    ".toList ++ ("<td>".toList ++ cell.toList ++ "</td>".toList) =
      "    <td>".toList ++ cell.toList ++ "</td>".toList
    rw [show "    <td>".toList = "    ".toList ++ "<td>".toList from rfl]
    simp [List.append_assoc]
  · -- csv
    intro hc1 hc2 hc3 hc4
    rw [strContains_iff, to_csv]
    have hfield : csvField cell = cell := by
      rw [csvField, if_neg]
      simp [hc1, hc2, hc3, hc4]
    have h1 : cell.toList <:+:
        (String.intercalate "," (row.map csvField)).toList := by
      refine mem_infix_intercalate "," cell _ ?_
      rw [← hfield]
      exact List.mem_map_of_mem _ hcell
    have h2 : cell.toList <:+: (csvRow row).toList := by
      rw [csvRow, stoList_append]
      exact infix_extend_right _ h1
    have h3 : cell.toList <:+:
        (String.join (rows.map csvRow)).toList :=
      h2.trans (mem_infix_join _ _ (List.mem_map_of_mem _ hrow))
    rw [stoList_append]
    exact infix_extend_left _ h3

/-- C7 witness: the general part of the amended theorem at the
concrete table. -/
theorem C7_witness :
    strContains (to_markdown ["Name", "Age"] [["Ann", "30"]]) "Ann" = true ∧
    strContains (to_html ["Name", "Age"] [["Ann", "30"]])
      ("<td>" ++ "Ann" ++ "</td>") = true :=
  ⟨((C7_amended.1 ["Name", "Age"] [["Ann", "30"]] ["Ann", "30"] "Ann"
      (by decide) (by decide)).1),
   ((C7_amended.1 ["Name", "Age"] [["Ann", "30"]] ["Ann", "30"] "Ann"
      (by decide) (by decide)).2.1)⟩

/-! ## C3 -/

theorem foldl_preserve {σ β : Type} (P : σ → Prop) (f : σ → β → σ)
    (hf : ∀ s b, P s → P (f s b)) :
    ∀ (l : List β) (s : σ), P s → P (l.foldl f s) := by
  intro l
  induction l with
  | nil => intro s h; exact h
  | cons b bs ih => intro s h; exact ih _ (hf s b h)

theorem equationPatternPhase_valid (reFind : String → String → List String)
    (reSubs : String → String) (text : String) (page_num : Nat) :
    ∀ e ∈ (equationPatternPhase reFind reSubs text page_num).1,
      is_valid_equation e.raw_text = true := by
  unfold equationPatternPhase
  refine foldl_preserve
    (fun acc : List Equation × Nat =>
      ∀ e ∈ acc.1, is_valid_equation e.raw_text = true)
    _ ?_ mathPatterns ([], 0) ?_
  · intro s pt hs
    refine foldl_preserve
      (fun acc : List Equation × Nat =>
        ∀ e ∈ acc.1, is_valid_equation e.raw_text = true)
      _ ?_ (reFind pt.1 text) s hs
    intro s2 m hs2
    by_cases hc : 2 < (pyStrip m).length ∧
        is_valid_equation (pyStrip m) = true
    · rw [if_pos hc]
      intro e he
      rcases List.mem_append.mp he with h | h
      · exact hs2 e h
      · rcases List.mem_singleton.mp h with rfl
        exact hc.2
    · rw [if_neg hc]
      exact hs2
  · intro e he
    exact absurd he (List.not_mem_nil e)

theorem equationStructuralPhase_types (reSubs : String → String)
    (blocks : List Block) (page_num : Nat) (start : List Equation × Nat) :
    ∀ e ∈ (equationStructuralPhase reSubs blocks page_num start).1,
      e ∈ start.1 ∨ e.type = "structural" := by
  unfold equationStructuralPhase
  refine foldl_preserve
    (fun acc : List Equation × Nat =>
      ∀ e ∈ acc.1, e ∈ start.1 ∨ e.type = "structural")
    _ ?_ blocks start ?_
  · intro s b hs
    by_cases hb : b.type = 0
    · rw [if_pos hb]
      by_cases hm : blockHasMathFont b = true ∧
          ¬ ((s.1.any fun eq => eq.raw_text = blockText b) = true)
      · rw [if_pos hm]
        intro e he
        rcases List.mem_append.mp he with h | h
        · exact hs e h
        · rcases List.mem_singleton.mp h with rfl
          exact Or.inr rfl
      · rw [if_neg hm]
        exact hs
    · rw [if_neg hb]
      exact hs
  · intro e he
    exact Or.inl he

/-- C3 counterexample: a page with no pattern match (its text is
empty, so all six regexes genuinely find nothing) but one text block
rendered in font `CMMI10` whose text is three spaces — the structural
fallback appends it **without** the `_is_valid_equation` check, so the
equation list contains a `structural` equation whose `raw_text` (the
stripped block text, here the empty string) violates the validity
predicate. -/
theorem C3_counterexample :
    (extract_equations_from_page (fun _ _ => []) (fun s => s)
        { blankPage with
          blocks :=
            [{ type := 0
               lines := [{ spans := [{ font := "CMMI10", text := "   " }] }] }] }
        1).map
      (fun e => (e.type, e.raw_text, is_valid_equation e.raw_text)) =
      [("structural", "", false)] := by
  decide

/-- C3 (amended): every equation emitted by the pattern phase of
`extract_equations_from_page` — i.e. every equation whose type is not
`structural` — has a `raw_text` satisfying the validity predicate
(an operator from {=,+,-,*,/,^,_} and an alphanumeric character);
the same holds for the whole-document `extract_math_from_pdf`.
Equations of type `structural` are appended without that check. -/
theorem C3_amended :
    (∀ (reFind : String → String → List String)
       (reSubs : String → String) (page : SrcPage) (page_num : Nat)
       (e : Equation),
      e ∈ extract_equations_from_page reFind reSubs page page_num →
      e.type ≠ "structural" → is_valid_equation e.raw_text = true) ∧
    (∀ (reFind : String → String → List String)
       (reSubs : String → String) (doc : FitzDoc) (options : POptions)
       (e : Equation),
      e ∈ extract_math_from_pdf reFind reSubs doc options →
      e.type ≠ "structural" → is_valid_equation e.raw_text = true) := by
  have hpage : ∀ (reFind : String → String → List String)
      (reSubs : String → String) (page : SrcPage) (page_num : Nat)
      (e : Equation),
      e ∈ extract_equations_from_page reFind reSubs page page_num →
      e.type ≠ "structural" → is_valid_equation e.raw_text = true := by
    intro reFind reSubs page page_num e he ht
    unfold extract_equations_from_page at he
    rcases equationStructuralPhase_types reSubs page.blocks page_num
      (equationPatternPhase reFind reSubs page.text page_num) e he with
      h | h
    · exact equationPatternPhase_valid reFind reSubs page.text page_num e h
    · exact absurd h ht
  refine ⟨hpage, ?_⟩
  intro reFind reSubs doc options e he ht
  unfold extract_math_from_pdf at he
  rcases List.mem_flatMap.mp he with ⟨page_num, _, hmem⟩
  cases hg : doc.pages[page_num]? with
  | none => rw [hg] at hmem; exact absurd hmem (List.not_mem_nil e)
  | some p =>
    rw [hg] at hmem
    exact hpage reFind reSubs p (page_num + 1) e hmem ht

/-- C3 witness: the amended theorem applied to a concrete pattern
match. -/
theorem C3_witness : is_valid_equation "1 + 1" = true :=
  C3_amended.1 (fun _ _ => ["1 + 1"]) (fun s => s) blankPage 1
    { id := "page1_eq0", page_number := 1, type := "display",
      raw_text := "1 + 1", latex := "1 + 1" }
    (by decide) (by decide)

/-! ## C4 and C1: per-strategy page/fullText lemmas -/

theorem except_pure_ok {α : Type} {x y : α}
    (h : (pure x : Except PyErr α) = .ok y) : x = y :=
  Except.ok.inj h

theorem runOcrBatches_eq_map (env : OcrEnv)
    (page_images : List (Nat × String)) :
    runOcrBatches env page_images =
      page_images.map (fun pi => ocrPageOut env.ocrMethodName pi.1 pi.2) := by
  unfold runOcrBatches
  exact chunks5_flatMap_map _ page_images

theorem ocr_result_props (env : OcrEnv) (src : List SrcPage) :
    (assembleOcrResult (runOcrBatches env
        (src.enum.map fun ip => (ip.1 + 1, ip.2.ocrText)))).fullText =
      String.intercalate "\n\n"
        ((assembleOcrResult (runOcrBatches env
          (src.enum.map fun ip => (ip.1 + 1, ip.2.ocrText)))).pages.map
            PageOut.content) ∧
    (assembleOcrResult (runOcrBatches env
        (src.enum.map fun ip => (ip.1 + 1, ip.2.ocrText)))).pages.map
          PageOut.pageNumber =
      List.range' 1 (assembleOcrResult (runOcrBatches env
        (src.enum.map fun ip => (ip.1 + 1, ip.2.ocrText)))).pages.length ∧
    (assembleOcrResult (runOcrBatches env
        (src.enum.map fun ip => (ip.1 + 1, ip.2.ocrText)))).pages.length =
      src.length := by
  refine ⟨rfl, ?_, ?_⟩
  · show (runOcrBatches env _).map PageOut.pageNumber =
      List.range' 1 (runOcrBatches env _).length
    rw [runOcrBatches_eq_map, List.map_map, List.map_map, List.length_map,
      List.length_map, List.enum_length]
    exact enumFrom_map_fst_succ src 0
  · show (runOcrBatches env _).length = src.length
    rw [runOcrBatches_eq_map, List.length_map, List.length_map,
      List.enum_length]

theorem hybridBuild_ok (options : POptions) (i : Nat) (page : SrcPage)
    (td : ℚ) (r : PageOut × String × Nat)
    (h : hybridBuild options i page td = .ok r) :
    r.1.pageNumber = i + 1 ∧ r.1.content = r.2.1 := by
  unfold hybridBuild at h
  by_cases hm :
      extractor_has_math_content (hybridText options page td) = true
  · rw [if_pos hm] at h
    exact absurd h (by simp)
  · rw [if_neg hm] at h
    injection h with h'
    subst h'
    exact ⟨rfl, rfl⟩

theorem hybridProcessPage_ok (options : POptions) (ip : Nat × SrcPage)
    (r : PageOut × String × Nat)
    (h : hybridProcessPage options ip = .ok r) :
    r.1.pageNumber = ip.1 + 1 ∧ r.1.content = r.2.1 := by
  unfold hybridProcessPage at h
  cases hd : hybridDensity ip.2 with
  | error e => rw [hd] at h; simp at h
  | ok td =>
    rw [hd] at h
    exact hybridBuild_ok options ip.1 ip.2 td r h

theorem hybridLoop_props (options : POptions) :
    ∀ (l : List (Nat × SrcPage)) (res : List (PageOut × String × Nat)),
      hybridLoop options l = .ok res →
      res.map (fun x => x.1.pageNumber) = l.map (fun ip => ip.1 + 1) ∧
      res.map (fun x => x.1.content) = res.map (fun x => x.2.1) := by
  intro l
  induction l with
  | nil =>
    intro res h
    rw [hybridLoop] at h
    injection h with h'
    subst h'
    exact ⟨rfl, rfl⟩
  | cons ip rest ih =>
    intro res h
    rw [hybridLoop] at h
    cases hp : hybridProcessPage options ip with
    | error e => rw [hp] at h; simp at h
    | ok r0 =>
      rw [hp] at h
      cases hl : hybridLoop options rest with
      | error e => rw [hl] at h; simp at h
      | ok rs =>
        rw [hl] at h
        have hres : r0 :: rs = res := by
          simpa using h
        subst hres
        obtain ⟨h1, h2⟩ := ih rs hl
        obtain ⟨hp1, hp2⟩ := hybridProcessPage_ok options ip r0 hp
        exact ⟨by simp [List.map_cons, hp1, h1],
          by simp [List.map_cons, hp2, h2]⟩

/-- C4: for every strategy (and the unknown-name fallback), whenever
the dispatcher returns a result, `fullText` is the `\n\n`-join of the
pages' `content` in page order, and the `pageNumber`s are exactly
1, 2, …, n. -/
theorem C4_fulltext (env : ExtractEnv) (doc : FitzDoc)
    (options : POptions) (strategy : String) (r : ExtractionResult)
    (h : extract_with_strategy env doc options strategy = .ok r) :
    r.fullText =
      String.intercalate "\n\n" (r.pages.map PageOut.content) ∧
    r.pages.map PageOut.pageNumber = List.range' 1 r.pages.length := by
  unfold extract_with_strategy at h
  have htext : ∀ r2 : ExtractionResult,
      extract_text_focused doc options = r2 →
      r2.fullText =
        String.intercalate "\n\n" (r2.pages.map PageOut.content) ∧
      r2.pages.map PageOut.pageNumber = List.range' 1 r2.pages.length := by
    intro r2 hr2
    subst hr2
    simp only [extract_text_focused]
    refine ⟨?_, ?_⟩
    · congr 1
      rw [List.map_map]
      exact (enumFrom_map_snd SrcPage.text _ 0).symm
    · rw [List.map_map, List.length_map, List.enum_length]
      exact enumFrom_map_fst_succ _ 0
  have hocr : ∀ r2 : ExtractionResult,
      process_pdf_with_ocr env.ocr doc options = .ok r2 →
      r2.fullText =
        String.intercalate "\n\n" (r2.pages.map PageOut.content) ∧
      r2.pages.map PageOut.pageNumber = List.range' 1 r2.pages.length := by
    intro r2 h2
    unfold process_pdf_with_ocr at h2
    split_ifs at h2 <;>
      first
        | exact Except.noConfusion h2
        | (have hr := except_pure_ok h2
           subst hr
           exact ⟨(ocr_result_props env.ocr _).1,
             (ocr_result_props env.ocr _).2.1⟩)
  split_ifs at h
  · exact htext r (except_pure_ok h)
  · exact hocr r h
  · -- hybrid
    unfold extract_hybrid at h
    cases hl : hybridLoop options
        (doc.pages.take (min (options.max_pages.getD doc.pages.length)
          doc.pages.length)).enum with
    | error e => rw [hl] at h; simp at h
    | ok results =>
      rw [hl] at h
      have hres :
          ({ pages := results.map fun x => x.1
             fullText := String.intercalate "\n\n"
               (results.map fun x => x.2.1)
             totalWordCount := (results.map fun x => x.2.2).sum
             extractionMethod := "hybrid" } : ExtractionResult) = r := by
        simpa using h
      subst hres
      obtain ⟨h1, h2⟩ := hybridLoop_props options _ results hl
      have h1c : results.map (PageOut.pageNumber ∘ fun x => x.1) =
          (doc.pages.take (min (options.max_pages.getD doc.pages.length)
            doc.pages.length)).enum.map (fun ip => ip.1 + 1) := h1
      refine ⟨?_, ?_⟩
      · show String.intercalate "\n\n" (results.map fun x => x.2.1) =
          String.intercalate "\n\n"
            ((results.map fun x => x.1).map PageOut.content)
        congr 1
        rw [List.map_map]
        exact h2.symm
      · show (results.map fun x => x.1).map PageOut.pageNumber =
          List.range' 1 ((results.map fun x => x.1).length)
        rw [List.map_map, List.length_map]
        have hlen : results.length =
            (doc.pages.take (min (options.max_pages.getD doc.pages.length)
              doc.pages.length)).length := by
          have h0 := congrArg List.length h1c
          rw [List.length_map, List.length_map, List.enum_length] at h0
          exact h0
        rw [h1c, hlen]
        exact enumFrom_map_fst_succ _ 0
  · -- table_focused
    have hr := except_pure_ok h
    subst hr
    simp only [extract_table_focused]
    refine ⟨?_, ?_⟩
    · congr 1
      rw [List.map_map]
      exact (enumFrom_map_snd SrcPage.text _ 0).symm
    · rw [List.map_map, List.length_map, List.enum_length]
      exact enumFrom_map_fst_succ _ 0
  · -- math_focused
    have hr := except_pure_ok h
    subst hr
    simp only [extract_math_focused]
    have hcont : ∀ p : PageOut,
        (if ((extract_math_from_pdf env.reFind env.reSubs doc
              options).filter fun eq => eq.page_number = p.pageNumber) ≠ []
          then
            { p with
                equations := some ((extract_math_from_pdf env.reFind
                  env.reSubs doc options).filter
                    fun eq => eq.page_number = p.pageNumber)
                metadata :=
                  { p.metadata with hasEquations := some true } }
          else p).content = p.content := by
      intro p
      by_cases hp : ((extract_math_from_pdf env.reFind env.reSubs doc
          options).filter fun eq => eq.page_number = p.pageNumber) ≠ []
      · rw [if_pos hp]
      · rw [if_neg hp]
    have hnum : ∀ p : PageOut,
        (if ((extract_math_from_pdf env.reFind env.reSubs doc
              options).filter fun eq => eq.page_number = p.pageNumber) ≠ []
          then
            { p with
                equations := some ((extract_math_from_pdf env.reFind
                  env.reSubs doc options).filter
                    fun eq => eq.page_number = p.pageNumber)
                metadata :=
                  { p.metadata with hasEquations := some true } }
          else p).pageNumber = p.pageNumber := by
      intro p
      by_cases hp : ((extract_math_from_pdf env.reFind env.reSubs doc
          options).filter fun eq => eq.page_number = p.pageNumber) ≠ []
      · rw [if_pos hp]
      · rw [if_neg hp]
    refine ⟨?_, ?_⟩
    · congr 1
      symm
      rw [List.map_map, List.map_map]
      refine Eq.trans (List.map_congr_left ?_)
        (enumFrom_map_snd SrcPage.text _ 0)
      intro ip _
      exact hcont _
    · rw [List.map_map, List.map_map, List.length_map, List.length_map,
        List.enum_length]
      refine Eq.trans (List.map_congr_left ?_)
        (enumFrom_map_fst_succ _ 0)
      intro ip _
      exact hnum _
  · exact htext r (except_pure_ok h)

/-- C4 witness: the theorem applied to the text strategy on a concrete
one-page document. -/
theorem C4_witness :
    (extract_text_focused ⟨[blankPage]⟩ {}).fullText =
      String.intercalate "\n\n"
        ((extract_text_focused ⟨[blankPage]⟩ {}).pages.map
          PageOut.content) ∧
    (extract_text_focused ⟨[blankPage]⟩ {}).pages.map PageOut.pageNumber =
      List.range' 1 (extract_text_focused ⟨[blankPage]⟩ {}).pages.length :=
  C4_fulltext simpleEnv ⟨[blankPage]⟩ {} "text_focus"
    (extract_text_focused ⟨[blankPage]⟩ {}) rfl

/-! ## C1 -/

theorem process_with_fitz_len (env : OcrEnv) (doc : FitzDoc)
    (options : POptions) :
    (process_with_fitz env doc options).pages.length =
      min (options.max_pages.getD doc.pages.length) doc.pages.length := by
  have h := (ocr_result_props env
    (doc.pages.take (min (options.max_pages.getD doc.pages.length)
      doc.pages.length))).2.2
  rw [List.length_take] at h
  exact h.trans (by omega)

theorem ocr_direct_len (env : OcrEnv) (doc : FitzDoc)
    (options : POptions) :
    (assembleOcrResult (runOcrBatches env
      ((match options.max_pages with
        | none => doc.pages
        | some m => doc.pages.take m).enum.map
          fun ip : Nat × SrcPage => (ip.1 + 1, ip.2.ocrText)))).pages.length =
      min (options.max_pages.getD doc.pages.length) doc.pages.length := by
  cases om : options.max_pages with
  | none =>
    have h := (ocr_result_props env doc.pages).2.2
    simpa using h.trans (min_self doc.pages.length).symm
  | some m =>
    have h := (ocr_result_props env (doc.pages.take m)).2.2
    simpa [List.length_take] using h

/-- C1 counterexample: a 2-page document parsed with `max_pages = 1` —
the table-focused and math-focused strategies both return 2 pages,
not `min(1, 2) = 1`: their text passes iterate over every page of the
document and never consult `max_pages`. -/
theorem C1_counterexample :
    (extract_table_focused ⟨[blankPage, blankPage]⟩
      { max_pages := some 1 }).pages.length = 2 ∧
    (extract_math_focused (fun _ _ => []) (fun s => s)
      ⟨[blankPage, blankPage]⟩ { max_pages := some 1 }).pages.length = 2 ∧
    min 1 2 = 1 := by
  refine ⟨by decide, by decide, rfl⟩

/-- C1 (amended): the text-focused, hybrid and OCR-heavy strategies
emit exactly `min(max_pages, total)` pages (whenever they return at
all), but the table-focused and math-focused strategies emit every
page of the document regardless of `max_pages` (only the math
strategy's equation sub-extraction respects the cap). -/
theorem C1_pagecounts (env : ExtractEnv) (doc : FitzDoc)
    (options : POptions) :
    (extract_text_focused doc options).pages.length =
      min (options.max_pages.getD doc.pages.length) doc.pages.length ∧
    ((extract_hybrid doc options).map fun r => r.pages.length) =
      ((extract_hybrid doc options).map fun _ =>
        min (options.max_pages.getD doc.pages.length) doc.pages.length) ∧
    ((process_pdf_with_ocr env.ocr doc options).map
        fun r => r.pages.length) =
      ((process_pdf_with_ocr env.ocr doc options).map fun _ =>
        min (options.max_pages.getD doc.pages.length) doc.pages.length) ∧
    (extract_table_focused doc options).pages.length = doc.pages.length ∧
    (extract_math_focused env.reFind env.reSubs doc options).pages.length =
      doc.pages.length := by
  refine ⟨?_, ?_, ?_, ?_, ?_⟩
  · simp only [extract_text_focused, List.length_map, List.enum_length,
      List.length_take]
    omega
  · unfold extract_hybrid
    cases hl : hybridLoop options
        (doc.pages.take (min (options.max_pages.getD doc.pages.length)
          doc.pages.length)).enum with
    | error e => rfl
    | ok results =>
      have h0 := congrArg List.length (hybridLoop_props options _
        results hl).1
      rw [List.length_map, List.length_map, List.enum_length,
        List.length_take] at h0
      simp only [Except.map, List.length_map]
      congr 1
      omega
  · unfold process_pdf_with_ocr
    split_ifs <;>
      first
        | rfl
        | exact congrArg Except.ok (process_with_fitz_len env.ocr doc options)
        | exact congrArg Except.ok (ocr_direct_len env.ocr doc options)
  · simp only [extract_table_focused, List.length_map, List.enum_length]
  · simp only [extract_math_focused, List.length_map, List.enum_length]

end Quizy
